import Mathlib

set_option maxHeartbeats 1000000
set_option maxRecDepth 8000

/- Formal model of the robot rescue game (src/game.c): the grid, the
   entities, the movement/collision resolver MoveEntity, the weighted A*
   pathfinder of move_robot_ai, the survival fallback, and the
   AdvanceLevel cooldown step.  C ints are modelled as Int (no value in
   the game approaches overflow); the float Vector2 positions always
   hold small exact integers and are modelled as Int pairs; the float
   heuristic weight (default 1.5f) is modelled as a fraction wN/wD with
   truncating division, 3/2 by default. -/

def GRID_W : Nat := 30
def GRID_H : Nat := 30

def GRID_WIDTH : Int := 30
def GRID_HEIGHT : Int := 30

inductive CellType where
  | air
  | wall
  | robot
  | mine
  | person
deriving DecidableEq

abbrev Grid := Int → Int → CellType

inductive Direction where
  | north
  | east
  | south
  | west
deriving DecidableEq

/-- DIR_VECTORS from game.c: N=(0,-1), E=(1,0), S=(0,1), W=(-1,0). -/
def dirVec : Direction → Int × Int
  | .north => (0, -1)
  | .east => (1, 0)
  | .south => (0, 1)
  | .west => (-1, 0)

def Direction.toIdx : Direction → Nat
  | .north => 0
  | .east => 1
  | .south => 2
  | .west => 3

def Direction.ofIdx (n : Nat) : Direction :=
  match n % 4 with
  | 0 => .north
  | 1 => .east
  | 2 => .south
  | _ => .west

/-- MovingEntity of game.c, with the two float likelihood fields omitted:
they feed only the random draws of MoveMovingEntity, which are outside
this model. -/
structure MovingEntity where
  position : Int × Int
  direction : Direction
deriving DecidableEq

/-- The parts of GameContext that the resolver, pathfinder and fallback
read and write.  The people array has NUM_PEOPLE = 5 entries; mines is
the dynamically sized array; hwN/hwD model AStarHeuristicWeightage. -/
structure GameCtx where
  grid : Grid
  robot : MovingEntity
  moveCooldown : Int
  people : Fin 5 → MovingEntity
  mines : List MovingEntity
  peopleRemaining : Int
  livesRemaining : Int
  hwN : Nat
  hwD : Nat

/-- Identifies which entity a MoveEntity call moves (in C this is the
aliasing of the pos/dir pointers into the context). -/
inductive MoverId where
  | robot
  | person (i : Fin 5)
  | mine (i : Nat)
deriving DecidableEq

def defaultEntity : MovingEntity := { position := (-1, -1), direction := .north }

def moverEntity (ctx : GameCtx) : MoverId → MovingEntity
  | .robot => ctx.robot
  | .person i => ctx.people i
  | .mine i => ctx.mines.getD i defaultEntity

/-- The entityCellType argument at each MoveEntity call site. -/
def moverCellType : MoverId → CellType
  | .robot => .robot
  | .person _ => .person
  | .mine _ => .mine

/-- The write through the pos pointer at the end of MoveEntity. -/
def setMoverPos (ctx : GameCtx) (m : MoverId) (p : Int × Int) : GameCtx :=
  match m with
  | .robot => { ctx with robot := { ctx.robot with position := p } }
  | .person i =>
      { ctx with people := fun j => if j = i then { ctx.people i with position := p } else ctx.people j }
  | .mine i =>
      { ctx with mines := ctx.mines.set i { ctx.mines.getD i defaultEntity with position := p } }

def gridSet (g : Grid) (p : Int × Int) (c : CellType) : Grid :=
  fun x y => if x = p.1 ∧ y = p.2 then c else g x y

/-- Spawn point used on life loss and on level advance:
(3*GRID_HEIGHT/4, GRID_WIDTH/4) = (22, 7). -/
def spawnPos : Int × Int := (3 * GRID_HEIGHT / 4, GRID_WIDTH / 4)

/-- The candidate cell: current position plus the direction vector. -/
def moverTarget (ctx : GameCtx) (m : MoverId) : Int × Int :=
  ((moverEntity ctx m).position.1 + (dirVec (moverEntity ctx m).direction).1,
   (moverEntity ctx m).position.2 + (dirVec (moverEntity ctx m).direction).2)

/-- The person-deactivation loop in MoveEntity: the first of the 5
people whose position equals the candidate cell is sent to (-1,-1). -/
def firstPersonAt (ps : Fin 5 → MovingEntity) (fp : Int × Int) : Option (Fin 5) :=
  if (ps 0).position = fp then some 0
  else if (ps 1).position = fp then some 1
  else if (ps 2).position = fp then some 2
  else if (ps 3).position = fp then some 3
  else if (ps 4).position = fp then some 4
  else none

def deactivatePersonAt (ctx : GameCtx) (fp : Int × Int) : GameCtx :=
  match firstPersonAt ctx.people fp with
  | none => ctx
  | some i =>
      { ctx with people := fun j => if j = i then { ctx.people i with position := (-1, -1) } else ctx.people j }

/-- MoveEntity from game.c (lines 180-220), resolved for the mover m.
Mirrors the original control flow: bounds check, person interaction
(robots only), wall/mine-vs-robot and robot-vs-mine collision block,
wall rejection, then the actual move. -/
def moveEntity (ctx : GameCtx) (m : MoverId) : GameCtx :=
  let e := moverEntity ctx m
  let futurePos := moverTarget ctx m
  if GRID_WIDTH ≤ futurePos.1 ∨ futurePos.1 < 0 ∨ GRID_HEIGHT ≤ futurePos.2 ∨ futurePos.2 < 0 then
    ctx
  else
    let futureCell := ctx.grid futurePos.1 futurePos.2
    let ect := moverCellType m
    if futureCell = .person ∧ ¬ect = .robot then ctx
    else
      let ctx1 :=
        if futureCell = .person then
          deactivatePersonAt { ctx with peopleRemaining := ctx.peopleRemaining - 1 } futurePos
        else ctx
      let collide :=
        ((futureCell = .wall ∨ futureCell = .mine) ∧ ect = .robot) ∨
          (futureCell = .robot ∧ ect = .mine)
      let ctx2 :=
        if collide then
          { ctx1 with
            livesRemaining := ctx1.livesRemaining - 1,
            grid := gridSet ctx1.grid e.position .air,
            robot := { ctx1.robot with position := spawnPos } }
        else ctx1
      if collide ∧ ect = .robot then ctx2
      else if futureCell = .wall then ctx2
      else
        let ctx3 := { ctx2 with grid := gridSet ctx2.grid e.position .air }
        let ctx4 := setMoverPos ctx3 m futurePos
        { ctx4 with grid := gridSet ctx4.grid futurePos ect }

/-- In-bounds predicate matching the checks in game.c. -/
def inGridI (p : Int × Int) : Prop :=
  0 ≤ p.1 ∧ p.1 < GRID_WIDTH ∧ 0 ≤ p.2 ∧ p.2 < GRID_HEIGHT

instance (p : Int × Int) : Decidable (inGridI p) := by
  unfold inGridI; exact inferInstance

--------------------------------------------------------------------------------
-- Concrete contexts used by witnesses and counterexamples
--------------------------------------------------------------------------------

/-- Grid with the robot at (5,5) and a wall at (6,5), scenario of the
spec's first collision bullet. -/
def exGridC5 : Grid := fun x y =>
  if x = 5 ∧ y = 5 then .robot
  else if x = 6 ∧ y = 5 then .wall
  else .air

def exCtxC5 : GameCtx :=
  { grid := exGridC5
  , robot := { position := (5, 5), direction := .east }
  , moveCooldown := 20
  , people := fun _ => defaultEntity
  , mines := []
  , peopleRemaining := 5
  , livesRemaining := 5
  , hwN := 3
  , hwD := 2 }

/-- Grid with a mine at (4,5) and the robot at (5,5); the mine faces
east, into the robot. -/
def exGridC2 : Grid := fun x y =>
  if x = 5 ∧ y = 5 then .robot
  else if x = 4 ∧ y = 5 then .mine
  else .air

def exCtxC2 : GameCtx :=
  { grid := exGridC2
  , robot := { position := (5, 5), direction := .north }
  , moveCooldown := 20
  , people := fun _ => defaultEntity
  , mines := [{ position := (4, 5), direction := .east }]
  , peopleRemaining := 5
  , livesRemaining := 5
  , hwN := 3
  , hwD := 2 }

--------------------------------------------------------------------------------
-- Resolver theorems
--------------------------------------------------------------------------------

lemma firstPersonAt_eq (ps : Fin 5 → MovingEntity) (fp : Int × Int) (j : Fin 5)
    (hj : (ps j).position = fp) (hfirst : ∀ k, k < j → (ps k).position ≠ fp) :
    firstPersonAt ps fp = some j := by
  fin_cases j <;> simp_all [firstPersonAt]

/-- C5: a Robot mover stepping into a Wall or Mine cell loses exactly one
life, vacates its origin cell, resets to the spawn point
(3*GRID_HEIGHT/4, GRID_WIDTH/4), and nothing else in the context
changes. -/
theorem robot_into_wall_or_mine (ctx : GameCtx)
    (h1 : inGridI (moverTarget ctx .robot))
    (h2 : ctx.grid (moverTarget ctx .robot).1 (moverTarget ctx .robot).2 = .wall ∨
          ctx.grid (moverTarget ctx .robot).1 (moverTarget ctx .robot).2 = .mine) :
    (moveEntity ctx .robot).livesRemaining = ctx.livesRemaining - 1 ∧
    (moveEntity ctx .robot).robot.position = spawnPos ∧
    (moveEntity ctx .robot).robot.direction = ctx.robot.direction ∧
    (∀ x y, (moveEntity ctx .robot).grid x y = gridSet ctx.grid ctx.robot.position .air x y) ∧
    (moveEntity ctx .robot).people = ctx.people ∧
    (moveEntity ctx .robot).mines = ctx.mines ∧
    (moveEntity ctx .robot).peopleRemaining = ctx.peopleRemaining ∧
    (moveEntity ctx .robot).moveCooldown = ctx.moveCooldown := by
  obtain ⟨ha, hb, hc, hd⟩ := h1
  have hbound : ¬(GRID_WIDTH ≤ (moverTarget ctx .robot).1 ∨ (moverTarget ctx .robot).1 < 0 ∨
      GRID_HEIGHT ≤ (moverTarget ctx .robot).2 ∨ (moverTarget ctx .robot).2 < 0) := by omega
  rcases h2 with h2 | h2 <;>
    simp [moveEntity, moverCellType, moverEntity, hbound, h2]

/-- C2 (amended): a Mine mover stepping into the Robot's cell costs a
life and resets the robot to spawn, but the mine's move is NOT aborted:
the mine ends up on the robot's former cell. -/
theorem mine_into_robot (ctx : GameCtx) (i : Nat)
    (_hi : i < ctx.mines.length)
    (h1 : inGridI (moverTarget ctx (.mine i)))
    (h2 : ctx.grid (moverTarget ctx (.mine i)).1 (moverTarget ctx (.mine i)).2 = .robot) :
    (moveEntity ctx (.mine i)).livesRemaining = ctx.livesRemaining - 1 ∧
    (moveEntity ctx (.mine i)).robot.position = spawnPos ∧
    (moveEntity ctx (.mine i)).mines =
      ctx.mines.set i { ctx.mines.getD i defaultEntity with position := moverTarget ctx (.mine i) } ∧
    (∀ x y, (moveEntity ctx (.mine i)).grid x y =
      gridSet (gridSet ctx.grid (ctx.mines.getD i defaultEntity).position .air)
        (moverTarget ctx (.mine i)) .mine x y) ∧
    (moveEntity ctx (.mine i)).people = ctx.people ∧
    (moveEntity ctx (.mine i)).peopleRemaining = ctx.peopleRemaining := by
  obtain ⟨ha, hb, hc, hd⟩ := h1
  have hbound : ¬(GRID_WIDTH ≤ (moverTarget ctx (.mine i)).1 ∨ (moverTarget ctx (.mine i)).1 < 0 ∨
      GRID_HEIGHT ≤ (moverTarget ctx (.mine i)).2 ∨ (moverTarget ctx (.mine i)).2 < 0) := by omega
  simp [moveEntity, moverCellType, moverEntity, setMoverPos, hbound, h2, gridSet]
  intro x y
  split_ifs <;> rfl

/-- C8 source, game.c lines 785-790: the cooldown update done by
AdvanceLevel (the else branch only changes the FPS target, not the
cooldown). -/
def advanceLevelCooldownStep (c : Int) : Int :=
  let c1 := max 1 (c - 1)
  if 1 < c1 then c1 - 1 else c1

/-- C8 counterexample: from cooldown 20 a level advance goes to 18, not
19, so the cooldown does not drop by exactly 1. -/
theorem advanceLevel_cooldown_counterexample :
    advanceLevelCooldownStep 20 = 18 ∧ advanceLevelCooldownStep 20 ≠ 20 - 1 := by decide

/-- C8 (amended): each AdvanceLevel call sets the cooldown to
max 1 (c - 2): it drops by up to 2 per call and never below 1. -/
theorem advanceLevel_cooldown (c : Int) :
    advanceLevelCooldownStep c = max 1 (c - 2) ∧
    1 ≤ advanceLevelCooldownStep c ∧
    c - 2 ≤ advanceLevelCooldownStep c := by
  have hstep : advanceLevelCooldownStep c =
      if 1 < max 1 (c - 1) then max 1 (c - 1) - 1 else max 1 (c - 1) := rfl
  rw [hstep]
  by_cases h : (1 : Int) < max 1 (c - 1)
  · rw [if_pos h]; omega
  · rw [if_neg h]; omega

/-- C6: a Robot stepping into the cell of a Person (the first person in
array order at that cell) decrements people-remaining, sends that person
to the sentinel (-1,-1), and moves the robot onto the cell; a non-Robot
mover stepping into a Person cell changes nothing. -/
theorem robot_into_person :
    (∀ (ctx : GameCtx) (j : Fin 5),
      inGridI (moverTarget ctx .robot) →
      ctx.grid (moverTarget ctx .robot).1 (moverTarget ctx .robot).2 = .person →
      (ctx.people j).position = moverTarget ctx .robot →
      (∀ k, k < j → (ctx.people k).position ≠ moverTarget ctx .robot) →
      (moveEntity ctx .robot).peopleRemaining = ctx.peopleRemaining - 1 ∧
      ((moveEntity ctx .robot).people j).position = (-1, -1) ∧
      (∀ k, k ≠ j → (moveEntity ctx .robot).people k = ctx.people k) ∧
      (moveEntity ctx .robot).robot.position = moverTarget ctx .robot ∧
      (moveEntity ctx .robot).livesRemaining = ctx.livesRemaining ∧
      (∀ x y, (moveEntity ctx .robot).grid x y =
        gridSet (gridSet ctx.grid ctx.robot.position .air) (moverTarget ctx .robot) .robot x y) ∧
      (moveEntity ctx .robot).mines = ctx.mines) ∧
    (∀ (ctx : GameCtx) (m : MoverId),
      ¬moverCellType m = .robot →
      ctx.grid (moverTarget ctx m).1 (moverTarget ctx m).2 = .person →
      moveEntity ctx m = ctx) := by
  constructor
  · intro ctx j h1 h2 hj hfirst
    obtain ⟨ha, hb, hc, hd⟩ := h1
    have hbound : ¬(GRID_WIDTH ≤ (moverTarget ctx .robot).1 ∨ (moverTarget ctx .robot).1 < 0 ∨
        GRID_HEIGHT ≤ (moverTarget ctx .robot).2 ∨ (moverTarget ctx .robot).2 < 0) := by omega
    have hfp : firstPersonAt ctx.people (moverTarget ctx .robot) = some j :=
      firstPersonAt_eq ctx.people (moverTarget ctx .robot) j hj hfirst
    simp [moveEntity, moverCellType, moverEntity, setMoverPos, deactivatePersonAt,
      hbound, h2, hfp]
    intro k hk hk2
    exact absurd hk2 hk
  · intro ctx m hm h2
    by_cases hbound : (GRID_WIDTH ≤ (moverTarget ctx m).1 ∨ (moverTarget ctx m).1 < 0 ∨
        GRID_HEIGHT ≤ (moverTarget ctx m).2 ∨ (moverTarget ctx m).2 < 0)
    · simp [moveEntity, hbound]
    · simp [moveEntity, hbound, h2, hm]

/-- Grid with the robot at (5,5) and a person at (6,5): the robot faces
east, into the person. -/
def exGridC6 : Grid := fun x y =>
  if x = 5 ∧ y = 5 then .robot
  else if x = 6 ∧ y = 5 then .person
  else .air

def exCtxC6 : GameCtx :=
  { grid := exGridC6
  , robot := { position := (5, 5), direction := .east }
  , moveCooldown := 20
  , people := fun j => if j = 0 then { position := (6, 5), direction := .north } else defaultEntity
  , mines := []
  , peopleRemaining := 5
  , livesRemaining := 5
  , hwN := 3
  , hwD := 2 }

theorem robot_into_person_witness :
    ((exCtxC6.people 0).position = moverTarget exCtxC6 .robot ∧
      exCtxC6.grid (moverTarget exCtxC6 .robot).1 (moverTarget exCtxC6 .robot).2 = .person) ∧
    (moveEntity exCtxC6 .robot).peopleRemaining = exCtxC6.peopleRemaining - 1 ∧
    ((moveEntity exCtxC6 .robot).people 0).position = (-1, -1) ∧
    (moveEntity exCtxC6 .robot).robot.position = moverTarget exCtxC6 .robot :=
  ⟨⟨by decide, by decide⟩,
   (robot_into_person.1 exCtxC6 0 (by decide) (by decide) (by decide)
     (fun k hk => absurd hk (by simp))).1,
   (robot_into_person.1 exCtxC6 0 (by decide) (by decide) (by decide)
     (fun k hk => absurd hk (by simp))).2.1,
   (robot_into_person.1 exCtxC6 0 (by decide) (by decide) (by decide)
     (fun k hk => absurd hk (by simp))).2.2.2.1⟩

theorem robot_into_wall_witness :
    (inGridI (moverTarget exCtxC5 .robot) ∧
      exCtxC5.grid (moverTarget exCtxC5 .robot).1 (moverTarget exCtxC5 .robot).2 = .wall) ∧
    (moveEntity exCtxC5 .robot).livesRemaining = exCtxC5.livesRemaining - 1 ∧
    (moveEntity exCtxC5 .robot).robot.position = spawnPos :=
  ⟨⟨by decide, by decide⟩,
   (robot_into_wall_or_mine exCtxC5 (by decide) (Or.inl (by decide))).1,
   (robot_into_wall_or_mine exCtxC5 (by decide) (Or.inl (by decide))).2.1⟩

/-- C2 counterexample: in exCtxC2 the mine at (4,5) steps into the robot
at (5,5); afterwards the mine's position HAS changed, to the robot's
former cell, which is now tagged Mine.  The claim says the mine's move
is aborted; the code completes it. -/
theorem mine_into_robot_counterexample :
    (exCtxC2.mines.getD 0 defaultEntity).position = (4, 5) ∧
    ((moveEntity exCtxC2 (.mine 0)).mines.getD 0 defaultEntity).position = (5, 5) ∧
    ¬((moveEntity exCtxC2 (.mine 0)).mines.getD 0 defaultEntity).position = (4, 5) ∧
    (moveEntity exCtxC2 (.mine 0)).grid 5 5 = .mine := by decide

theorem mine_into_robot_witness :
    (0 < exCtxC2.mines.length ∧ inGridI (moverTarget exCtxC2 (.mine 0)) ∧
      exCtxC2.grid (moverTarget exCtxC2 (.mine 0)).1 (moverTarget exCtxC2 (.mine 0)).2 = .robot) ∧
    (moveEntity exCtxC2 (.mine 0)).livesRemaining = exCtxC2.livesRemaining - 1 ∧
    (moveEntity exCtxC2 (.mine 0)).robot.position = spawnPos :=
  ⟨⟨by decide, by decide, by decide⟩,
   (mine_into_robot exCtxC2 0 (by decide) (by decide) (by decide)).1,
   (mine_into_robot exCtxC2 0 (by decide) (by decide) (by decide)).2.1⟩

--------------------------------------------------------------------------------
-- Weighted A* pathfinder (move_robot_ai, game.c lines 287-446)
--------------------------------------------------------------------------------

/-- The Node record of game.c; the x,y fields are the index of the node
in the per-cell array and are kept implicit in the function
representation below.  C's parentX/parentY ints are kept, -1 meaning no
parent. -/
structure ANode where
  gCost : Nat
  hCost : Nat
  fCost : Nat
  parentX : Int
  parentY : Int
  closed : Bool
  isOpen : Bool
deriving DecidableEq

abbrev ANodes := (Int × Int) → ANode

/-- The reset value (Node){x, y, 9999, 9999, 9999, -1, -1, false, false}. -/
def initialANode : ANode :=
  { gCost := 9999, hCost := 9999, fCost := 9999, parentX := -1, parentY := -1,
    closed := false, isOpen := false }

def nodesSet (ns : ANodes) (p : Int × Int) (n : ANode) : ANodes :=
  fun q => if q = p then n else ns q

/-- GetDistance: Manhattan distance. -/
def getDistance (x1 y1 x2 y2 : Int) : Nat :=
  (x1 - x2).natAbs + (y1 - y2).natAbs

/-- Nodes after step 3 of move_robot_ai: everything reset, the start
node opened with g = 0 and (unweighted) h = f = distance to target. -/
def astarInitNodes (start goal : Int × Int) : ANodes :=
  nodesSet (fun _ => initialANode) start
    { gCost := 0, hCost := getDistance start.1 start.2 goal.1 goal.2,
      fCost := getDistance start.1 start.2 goal.1 goal.2,
      parentX := -1, parentY := -1, closed := false, isOpen := true }

/-- All grid cells in the scan order of the C nested loops (x outer). -/
def gridCells : List (Int × Int) :=
  (List.range GRID_W).flatMap fun x : Nat =>
    (List.range GRID_H).map fun y : Nat => ((x : Int), (y : Int))

/-- The open-node scan at the top of the A* main loop: first open node
with fCost strictly below every earlier one, lowestF starting at 999999. -/
def findLowestOpen (ns : ANodes) : Option (Int × Int) :=
  (gridCells.foldl
    (fun acc c => if (ns c).isOpen = true ∧ (ns c).fCost < acc.2 then (some c, (ns c).fCost) else acc)
    ((none : Option (Int × Int)), 999999)).1

/-- The 8 neighbour offsets scanned by IsNearMine, in C loop order. -/
def nbrOffsets : List (Int × Int) :=
  [(-1, -1), (-1, 0), (-1, 1), (0, -1), (0, 1), (1, -1), (1, 0), (1, 1)]

/-- IsNearMine (game.c lines 248-264). -/
def isNearMine (g : Grid) (x y : Int) : Bool :=
  nbrOffsets.any fun d =>
    decide (0 ≤ x + d.1 ∧ x + d.1 < GRID_WIDTH ∧ 0 ≤ y + d.2 ∧ y + d.2 < GRID_HEIGHT) &&
    decide (g (x + d.1) (y + d.2) = .mine)

/-- The weighted heuristic (int)(GetDistance * AStarHeuristicWeightage)
for weight wN/wD; Nat division is the float-to-int truncation. -/
def weightedH (wN wD : Nat) (x y gx gy : Int) : Nat :=
  getDistance x y gx gy * wN / wD

/-- Neighbour offsets of the expansion loop: dirX = {0,1,0,-1},
dirY = {-1,0,1,0}. -/
def astarDirs : List (Int × Int) := [(0, -1), (1, 0), (0, 1), (-1, 0)]

/-- One iteration of the neighbour loop (game.c lines 367-394): bounds
check, hard block on Wall/Mine, closed check, then relax with the +20
danger penalty when the cell is near a mine. -/
def relaxNbr (g : Grid) (goal : Int × Int) (wN wD : Nat) (cur : Int × Int)
    (ns : ANodes) (d : Int × Int) : ANodes :=
  let cx := cur.1 + d.1
  let cy := cur.2 + d.2
  if cx < 0 ∨ GRID_WIDTH ≤ cx ∨ cy < 0 ∨ GRID_HEIGHT ≤ cy then ns
  else if g cx cy = .wall ∨ g cx cy = .mine then ns
  else if (ns (cx, cy)).closed = true then ns
  else
    let dangerPenalty : Nat := if isNearMine g cx cy then 20 else 0
    let moveCost := (ns cur).gCost + 1 + dangerPenalty
    if moveCost < (ns (cx, cy)).gCost ∨ ¬(ns (cx, cy)).isOpen = true then
      nodesSet ns (cx, cy)
        { gCost := moveCost, hCost := weightedH wN wD cx cy goal.1 goal.2,
          fCost := moveCost + weightedH wN wD cx cy goal.1 goal.2,
          parentX := cur.1, parentY := cur.2,
          closed := (ns (cx, cy)).closed, isOpen := true }
    else ns

def expandNode (g : Grid) (goal : Int × Int) (wN wD : Nat) (ns : ANodes) (cur : Int × Int) : ANodes :=
  astarDirs.foldl (relaxNbr g goal wN wD cur) ns

/-- current->open = false; current->closed = true. -/
def closeANode (ns : ANodes) (cur : Int × Int) : ANodes :=
  nodesSet ns cur { ns cur with isOpen := false, closed := true }

inductive AStarOutcome where
  | found
  | exhausted
deriving DecidableEq

/-- The A* main loop (while(true) of game.c lines 329-395), with an
explicit fuel; none = fuel ran out (proved unreachable for fuel
GRID_W*GRID_H+1 below). -/
def astarLoop (g : Grid) (goal : Int × Int) (wN wD : Nat) :
    Nat → ANodes → Option (AStarOutcome × ANodes)
  | 0, _ => none
  | fuel + 1, ns =>
    match findLowestOpen ns with
    | none => some (.exhausted, ns)
    | some cur =>
      if cur = goal then some (.found, ns)
      else astarLoop g goal wN wD fuel (expandNode g goal wN wD (closeANode ns cur) cur)

/-- The retrace loop: follow parent pointers from the goal, stopping at
the start (excluded) or a -1 parent; entries are appended in the order
the C code fills currentPath (goal first). -/
def retraceAux (ns : ANodes) (start : Int × Int) :
    Nat → (Int × Int) → List (Int × Int) → Option (List (Int × Int))
  | 0, _, _ => none
  | fuel + 1, c, acc =>
    if c.1 = -1 ∨ c.2 = -1 then some acc
    else if c = start then some acc
    else retraceAux ns start fuel ((ns c).parentX, (ns c).parentY) (acc ++ [c])

/-- The path computed by one A* invocation of move_robot_ai.  The loop
fuel GRID_W*GRID_H+1 and the retrace fuel gCost(goal)+1 are proved
sufficient below (the C loops are unbounded; these fuels never run
out). -/
def astarPath (g : Grid) (start goal : Int × Int) (wN wD : Nat) : List (Int × Int) :=
  match astarLoop g goal wN wD (GRID_W * GRID_H + 1) (astarInitNodes start goal) with
  | some (.found, ns) => (retraceAux ns start ((ns goal).gCost + 1) goal []).getD []
  | _ => []

--------------------------------------------------------------------------------
-- Survival fallback and target selection
--------------------------------------------------------------------------------

/-- Offsets -radius..radius scanned by GetLocalSafetyScore. -/
def radiusOffsets (r : Nat) : List Int :=
  (List.range (2 * r + 1)).map fun k : Nat => ((k : Int) - (r : Int))

/-- An in-bounds mine at offset (dx,dy) from (x,y): the body condition
of the GetLocalSafetyScore scan. -/
def safeMineAt (g : Grid) (x y dx dy : Int) : Prop :=
  (0 ≤ x + dx ∧ x + dx < GRID_WIDTH ∧ 0 ≤ y + dy ∧ y + dy < GRID_HEIGHT) ∧
  g (x + dx) (y + dy) = .mine

instance (g : Grid) (x y dx dy : Int) : Decidable (safeMineAt g x y dx dy) := by
  unfold safeMineAt; exact inferInstance

/-- The inner loop body of GetLocalSafetyScore: keep the running
closest-mine distance. -/
def safetyStep (g : Grid) (x y dx : Int) (acc2 : Nat) (dy : Int) : Nat :=
  if safeMineAt g x y dx dy ∧ dx.natAbs + dy.natAbs < acc2 then dx.natAbs + dy.natAbs
  else acc2

/-- GetLocalSafetyScore (game.c lines 268-285): minimum Manhattan
distance to a mine in the (2r+1)-square box, 999 when none. -/
def getLocalSafetyScore (g : Grid) (x y : Int) (radius : Nat) : Nat :=
  (radiusOffsets radius).foldl
    (fun acc dx => (radiusOffsets radius).foldl (safetyStep g x y dx) acc)
    999

/-- dx[], dy[] and dirs[] of the fallback, indexed 0..3. -/
def fbDelta : Fin 4 → Int × Int
  | 0 => (0, -1)
  | 1 => (1, 0)
  | 2 => (0, 1)
  | 3 => (-1, 0)

def fbDir : Fin 4 → Direction
  | 0 => .north
  | 1 => .east
  | 2 => .south
  | 3 => .west

def fbCandidate (sp : Int × Int) (idx : Fin 4) : Int × Int :=
  (sp.1 + (fbDelta idx).1, sp.2 + (fbDelta idx).2)

/-- A fallback candidate survives the two continue checks: on the grid
and not Wall/Mine occupied. -/
def fbLegal (g : Grid) (c : Int × Int) : Prop :=
  inGridI c ∧ ¬g c.1 c.2 = .wall ∧ ¬g c.1 c.2 = .mine

instance (g : Grid) (c : Int × Int) : Decidable (fbLegal g c) := by
  unfold fbLegal; exact inferInstance

structure FbAcc where
  bestScore : Int
  bestMove : Int × Int
  bestDir : Direction
deriving DecidableEq

/-- Safety score of a fallback candidate, radius 4 as in the C call. -/
def fbScore (g : Grid) (sp : Int × Int) (idx : Fin 4) : Nat :=
  getLocalSafetyScore g (fbCandidate sp idx).1 (fbCandidate sp idx).2 4

def fbStep (g : Grid) (sp : Int × Int) (acc : FbAcc) (idx : Fin 4) : FbAcc :=
  if fbLegal g (fbCandidate sp idx) then
    if (fbScore g sp idx : Int) > acc.bestScore then
      { bestScore := (fbScore g sp idx : Int), bestMove := fbCandidate sp idx,
        bestDir := fbDir idx }
    else acc
  else acc

/-- Candidate order: idx = (startIdx + i) % 4 for i = 0..3. -/
def rotOrder (s : Fin 4) : List (Fin 4) :=
  (List.range 4).map fun i => ⟨(s.val + i) % 4, Nat.mod_lt _ (by norm_num)⟩

/-- The survival fallback (game.c lines 410-445): scan the 4 rotated
candidates, keep the strictly best safety score, else reverse
direction. -/
def survivalFallback (g : Grid) (sp : Int × Int) (d0 : Direction) (s : Fin 4) :
    Direction × List (Int × Int) :=
  let acc := (rotOrder s).foldl (fbStep g sp) { bestScore := -1, bestMove := (-1, -1), bestDir := d0 }
  if ¬acc.bestMove.1 = -1 then (acc.bestDir, [acc.bestMove])
  else (Direction.ofIdx (d0.toIdx + 2), [])

/-- Target selection of move_robot_ai (lines 292-305): nearest active
person by Manhattan distance, first wins ties, shortestDist starting at
99999. -/
def selectTarget (people : Fin 5 → MovingEntity) (sp : Int × Int) : Option (Int × Int) :=
  ((List.finRange 5).foldl
    (fun acc i =>
      if ¬(people i).position.1 = -1 ∧
          getDistance sp.1 sp.2 (people i).position.1 (people i).position.2 < acc.2 then
        (some (people i).position,
         getDistance sp.1 sp.2 (people i).position.1 (people i).position.2)
      else acc)
    ((none : Option (Int × Int)), 99999)).1

/-- Direction update from the executed next step (lines 402-408): the
four successive ifs. -/
def stepDirFrom (d0 : Direction) (dx dy : Int) : Direction :=
  let d1 := if dy = -1 then Direction.north else d0
  let d2 := if dx = 1 then Direction.east else d1
  let d3 := if dy = 1 then Direction.south else d2
  if dx = -1 then Direction.west else d3

/-- The path part of one move_robot_ai invocation: empty when no person
is active, else the A* result. -/
def robotAiPath (ctx : GameCtx) : List (Int × Int) :=
  match selectTarget ctx.people ctx.robot.position with
  | none => []
  | some t => astarPath ctx.grid ctx.robot.position t ctx.hwN ctx.hwD

/-- move_robot_ai: new robot direction and currentPath; s models the
rand() % 4 rotation offset drawn by the fallback. -/
def moveRobotAi (ctx : GameCtx) (s : Fin 4) : Direction × List (Int × Int) :=
  let p := robotAiPath ctx
  match p.getLast? with
  | some nextStep =>
      (stepDirFrom ctx.robot.direction (nextStep.1 - ctx.robot.position.1)
        (nextStep.2 - ctx.robot.position.2), p)
  | none => survivalFallback ctx.grid ctx.robot.position ctx.robot.direction s


--------------------------------------------------------------------------------
-- C7: no active person => no pathfinding
--------------------------------------------------------------------------------

/-- C7: when every person is inactive (sentinel position), target
selection fails, the path is empty whatever the grid contents are (no
A* node is ever consulted), and move_robot_ai goes straight to the
survival fallback. -/
theorem no_target_skips_astar (ctx : GameCtx) (s : Fin 4)
    (h : ∀ i, (ctx.people i).position.1 = -1) :
    robotAiPath ctx = [] ∧
    (∀ g2 : Grid, robotAiPath { ctx with grid := g2 } = []) ∧
    moveRobotAi ctx s = survivalFallback ctx.grid ctx.robot.position ctx.robot.direction s := by
  have hfr : List.finRange 5 = [0, 1, 2, 3, 4] := by decide
  have key : selectTarget ctx.people ctx.robot.position = none := by
    simp [selectTarget, hfr, h]
  refine ⟨?_, ?_, ?_⟩
  · simp [robotAiPath, key]
  · intro g2
    simp [robotAiPath]
    have : selectTarget ({ ctx with grid := g2 } : GameCtx).people
        ({ ctx with grid := g2 } : GameCtx).robot.position = none := key
    simp [this]
  · simp [moveRobotAi, robotAiPath, key]

theorem no_target_skips_astar_witness :
    (∀ i : Fin 5, (exCtxC5.people i).position.1 = -1) ∧ robotAiPath exCtxC5 = [] :=
  ⟨by decide, (no_target_skips_astar exCtxC5 0 (by decide)).1⟩

--------------------------------------------------------------------------------
-- C4: cost structure of the A* relaxation
--------------------------------------------------------------------------------

/-- C4: IsNearMine is exactly "some in-bounds cell at Chebyshev distance
1 is a Mine"; Wall/Mine cells are never relaxed into; and a firing
relaxation writes g = g(current) + 1 + (20 iff near a mine),
h = Manhattan distance times wN/wD truncated, f = g + h, with the
parent set to the current node. -/
theorem astar_cost_structure :
    (∀ (g : Grid) (x y : Int), isNearMine g x y = true ↔
      ∃ d : Int × Int, d.1.natAbs ≤ 1 ∧ d.2.natAbs ≤ 1 ∧ ¬d = (0, 0) ∧
        (0 ≤ x + d.1 ∧ x + d.1 < GRID_WIDTH ∧ 0 ≤ y + d.2 ∧ y + d.2 < GRID_HEIGHT) ∧
        g (x + d.1) (y + d.2) = .mine) ∧
    (∀ (g : Grid) (goal : Int × Int) (wN wD : Nat) (cur : Int × Int) (ns : ANodes) (d : Int × Int),
      (g (cur.1 + d.1) (cur.2 + d.2) = .wall ∨ g (cur.1 + d.1) (cur.2 + d.2) = .mine) →
      relaxNbr g goal wN wD cur ns d = ns) ∧
    (∀ (g : Grid) (goal : Int × Int) (wN wD : Nat) (cur : Int × Int) (ns : ANodes) (d : Int × Int),
      inGridI (cur.1 + d.1, cur.2 + d.2) →
      ¬g (cur.1 + d.1) (cur.2 + d.2) = .wall →
      ¬g (cur.1 + d.1) (cur.2 + d.2) = .mine →
      (ns (cur.1 + d.1, cur.2 + d.2)).closed = false →
      ((ns cur).gCost + 1 + (if isNearMine g (cur.1 + d.1) (cur.2 + d.2) then 20 else 0) <
          (ns (cur.1 + d.1, cur.2 + d.2)).gCost ∨
        ¬(ns (cur.1 + d.1, cur.2 + d.2)).isOpen = true) →
      (relaxNbr g goal wN wD cur ns d) (cur.1 + d.1, cur.2 + d.2) =
        { gCost := (ns cur).gCost + 1 +
            (if isNearMine g (cur.1 + d.1) (cur.2 + d.2) then 20 else 0),
          hCost := getDistance (cur.1 + d.1) (cur.2 + d.2) goal.1 goal.2 * wN / wD,
          fCost := (ns cur).gCost + 1 +
              (if isNearMine g (cur.1 + d.1) (cur.2 + d.2) then 20 else 0) +
            getDistance (cur.1 + d.1) (cur.2 + d.2) goal.1 goal.2 * wN / wD,
          parentX := cur.1, parentY := cur.2, closed := false, isOpen := true }) := by
  refine ⟨?_, ?_, ?_⟩
  · intro g x y
    simp only [isNearMine, List.any_eq_true, Bool.and_eq_true, decide_eq_true_eq]
    constructor
    · rintro ⟨d, hd, hb, hm⟩
      refine ⟨d, ?_, ?_, ?_, hb, hm⟩ <;> fin_cases hd <;> decide
    · rintro ⟨⟨dx, dy⟩, h1, h2, h3, hb, hm⟩
      have hx : dx = -1 ∨ dx = 0 ∨ dx = 1 := by omega
      have hy : dy = -1 ∨ dy = 0 ∨ dy = 1 := by omega
      rcases hx with rfl | rfl | rfl <;> rcases hy with rfl | rfl | rfl
      · exact ⟨(-1, -1), by decide, hb, hm⟩
      · exact ⟨(-1, 0), by decide, hb, hm⟩
      · exact ⟨(-1, 1), by decide, hb, hm⟩
      · exact ⟨(0, -1), by decide, hb, hm⟩
      · exact absurd rfl h3
      · exact ⟨(0, 1), by decide, hb, hm⟩
      · exact ⟨(1, -1), by decide, hb, hm⟩
      · exact ⟨(1, 0), by decide, hb, hm⟩
      · exact ⟨(1, 1), by decide, hb, hm⟩
  · intro g goal wN wD cur ns d hwm
    simp only [relaxNbr]
    by_cases hb : (cur.1 + d.1 < 0 ∨ GRID_WIDTH ≤ cur.1 + d.1 ∨
        cur.2 + d.2 < 0 ∨ GRID_HEIGHT ≤ cur.2 + d.2)
    · rw [if_pos hb]
    · rw [if_neg hb, if_pos hwm]
  · intro g goal wN wD cur ns d hin hw hm hcl hrel
    obtain ⟨ha, hb2, hc, hd2⟩ := hin
    simp only [relaxNbr, weightedH]
    rw [if_neg (by omega), if_neg (by simp [hw, hm]), if_neg (by simp [hcl]), if_pos hrel]
    simp [nodesSet, hcl]

theorem astar_cost_structure_witness :
    ((fun _ _ => CellType.air : Grid) 2 1 ≠ .wall ∧
      (fun _ _ => CellType.air : Grid) 2 1 ≠ .mine ∧
      ((astarInitNodes (1, 1) (3, 1)) (2, 1)).closed = false ∧
      ¬((astarInitNodes (1, 1) (3, 1)) (2, 1)).isOpen = true ∧
      exGridC2 4 4 = .air ∧ isNearMine exGridC2 4 4 = true) ∧
    (relaxNbr (fun _ _ => .air) (3, 1) 3 2 (1, 1) (astarInitNodes (1, 1) (3, 1)) (1, 0))
        (2, 1) =
      { gCost := 1, hCost := 1, fCost := 2, parentX := 1, parentY := 1,
        closed := false, isOpen := true } ∧
    (∀ (goal : Int × Int) (wN wD : Nat) (ns : ANodes),
      relaxNbr exGridC5 goal wN wD (5, 5) ns (1, 0) = ns) := by
  refine ⟨by decide, ?_, ?_⟩
  · have h := astar_cost_structure.2.2 (fun _ _ => .air) (3, 1) 3 2 (1, 1)
      (astarInitNodes (1, 1) (3, 1)) (1, 0) (by decide) (by decide) (by decide) (by decide)
      (Or.inr (by decide))
    rw [show ((1:Int) + 1, (1:Int) + 0) = ((2:Int), (1:Int)) by decide] at h
    rw [h]
    decide
  · intro goal wN wD ns
    exact astar_cost_structure.2.1 exGridC5 goal wN wD (5, 5) ns (1, 0)
      (Or.inl (by decide))

--------------------------------------------------------------------------------
-- C9: survival fallback
--------------------------------------------------------------------------------

lemma safetyStep_le (g : Grid) (x y dx : Int) (acc : Nat) (dy : Int) :
    safetyStep g x y dx acc dy ≤ acc := by
  unfold safetyStep
  split
  next h => exact Nat.le_of_lt h.2
  next => exact Nat.le_refl acc

lemma safetyFoldInner_le (g : Grid) (x y dx : Int) (l : List Int) :
    ∀ acc : Nat, l.foldl (safetyStep g x y dx) acc ≤ acc := by
  induction l with
  | nil => intro acc; exact Nat.le_refl acc
  | cons a l ih =>
      intro acc
      simp only [List.foldl_cons]
      exact Nat.le_trans (ih _) (safetyStep_le g x y dx acc a)

lemma safetyFoldInner_ub (g : Grid) (x y dx : Int) (l : List Int) :
    ∀ (acc : Nat) (dy : Int), dy ∈ l → safeMineAt g x y dx dy →
      l.foldl (safetyStep g x y dx) acc ≤ dx.natAbs + dy.natAbs := by
  induction l with
  | nil => intro acc dy h _; exact absurd h (List.not_mem_nil dy)
  | cons a l ih =>
      intro acc dy hmem hmine
      simp only [List.foldl_cons]
      rcases List.mem_cons.mp hmem with rfl | hmem2
      · refine Nat.le_trans (safetyFoldInner_le g x y dx l _) ?_
        unfold safetyStep
        split
        next => exact Nat.le_refl _
        next h =>
          have h2 : ¬dx.natAbs + dy.natAbs < acc := fun hlt => h ⟨hmine, hlt⟩
          omega
      · exact ih _ dy hmem2 hmine

lemma safetyFoldInner_mem (g : Grid) (x y dx : Int) (l : List Int) :
    ∀ acc : Nat, l.foldl (safetyStep g x y dx) acc = acc ∨
      ∃ dy ∈ l, safeMineAt g x y dx dy ∧
        l.foldl (safetyStep g x y dx) acc = dx.natAbs + dy.natAbs := by
  induction l with
  | nil => intro acc; exact Or.inl rfl
  | cons a l ih =>
      intro acc
      simp only [List.foldl_cons]
      by_cases h : safeMineAt g x y dx a ∧ dx.natAbs + a.natAbs < acc
      · have hstep : safetyStep g x y dx acc a = dx.natAbs + a.natAbs := by
          unfold safetyStep; rw [if_pos h]
        rw [hstep]
        rcases ih (dx.natAbs + a.natAbs) with h2 | ⟨dy, hdy, hm, he⟩
        · exact Or.inr ⟨a, List.mem_cons_self a l, h.1, h2⟩
        · exact Or.inr ⟨dy, List.mem_cons_of_mem a hdy, hm, he⟩
      · have hstep : safetyStep g x y dx acc a = acc := by
          unfold safetyStep; rw [if_neg h]
        rw [hstep]
        rcases ih acc with h2 | ⟨dy, hdy, hm, he⟩
        · exact Or.inl h2
        · exact Or.inr ⟨dy, List.mem_cons_of_mem a hdy, hm, he⟩

lemma safetyFoldOuter_le (g : Grid) (x y : Int) (li : List Int) (l : List Int) :
    ∀ acc : Nat, l.foldl (fun acc dx => li.foldl (safetyStep g x y dx) acc) acc ≤ acc := by
  induction l with
  | nil => intro acc; exact Nat.le_refl acc
  | cons a l ih =>
      intro acc
      simp only [List.foldl_cons]
      exact Nat.le_trans (ih _) (safetyFoldInner_le g x y a li acc)

lemma safetyFoldOuter_ub (g : Grid) (x y : Int) (li : List Int) (l : List Int) :
    ∀ (acc : Nat) (dx dy : Int), dx ∈ l → dy ∈ li → safeMineAt g x y dx dy →
      l.foldl (fun acc dx => li.foldl (safetyStep g x y dx) acc) acc ≤
        dx.natAbs + dy.natAbs := by
  induction l with
  | nil => intro acc dx dy h _ _; exact absurd h (List.not_mem_nil dx)
  | cons a l ih =>
      intro acc dx dy hdx hdy hmine
      simp only [List.foldl_cons]
      rcases List.mem_cons.mp hdx with rfl | hdx2
      · exact Nat.le_trans (safetyFoldOuter_le g x y li l _)
          (safetyFoldInner_ub g x y dx li acc dy hdy hmine)
      · exact ih _ dx dy hdx2 hdy hmine

lemma safetyFoldOuter_mem (g : Grid) (x y : Int) (li : List Int) (l : List Int) :
    ∀ acc : Nat, l.foldl (fun acc dx => li.foldl (safetyStep g x y dx) acc) acc = acc ∨
      ∃ dx ∈ l, ∃ dy ∈ li, safeMineAt g x y dx dy ∧
        l.foldl (fun acc dx => li.foldl (safetyStep g x y dx) acc) acc =
          dx.natAbs + dy.natAbs := by
  induction l with
  | nil => intro acc; exact Or.inl rfl
  | cons a l ih =>
      intro acc
      simp only [List.foldl_cons]
      rcases ih (li.foldl (safetyStep g x y a) acc) with h2 | ⟨dx, hdx, dy, hdy, hm, he⟩
      · rw [h2]
        rcases safetyFoldInner_mem g x y a li acc with h3 | ⟨dy, hdy, hm, he⟩
        · exact Or.inl h3
        · exact Or.inr ⟨a, List.mem_cons_self a l, dy, hdy, hm, he⟩
      · exact Or.inr ⟨dx, List.mem_cons_of_mem a hdx, dy, hdy, hm, he⟩

lemma mem_radiusOffsets (r : Nat) (d : Int) : d ∈ radiusOffsets r ↔ d.natAbs ≤ r := by
  unfold radiusOffsets
  constructor
  · intro h
    obtain ⟨k, hk, he⟩ := List.mem_map.mp h
    have hk2 := List.mem_range.mp hk
    omega
  · intro h
    refine List.mem_map.mpr ⟨(d + r).toNat, List.mem_range.mpr ?_, ?_⟩ <;> omega

def fbInit (d0 : Direction) : FbAcc :=
  { bestScore := -1, bestMove := (-1, -1), bestDir := d0 }

/-- Invariant of the fallback candidate scan: either nothing legal was
seen yet, or the accumulator holds the first-found strict maximum of the
legal candidates processed so far. -/
def FbGood (g : Grid) (sp : Int × Int) (d0 : Direction)
    (processed : List (Fin 4)) (acc : FbAcc) : Prop :=
  (acc = fbInit d0 ∧ ∀ j ∈ processed, ¬fbLegal g (fbCandidate sp j)) ∨
  (∃ pre i post, processed = pre ++ i :: post ∧ fbLegal g (fbCandidate sp i) ∧
    acc = { bestScore := (fbScore g sp i : Int), bestMove := fbCandidate sp i,
            bestDir := fbDir i } ∧
    (∀ j ∈ pre, fbLegal g (fbCandidate sp j) → fbScore g sp j < fbScore g sp i) ∧
    (∀ j ∈ post, fbLegal g (fbCandidate sp j) → fbScore g sp j ≤ fbScore g sp i))

lemma fbStep_good (g : Grid) (sp : Int × Int) (d0 : Direction)
    (processed : List (Fin 4)) (acc : FbAcc) (idx : Fin 4)
    (h : FbGood g sp d0 processed acc) :
    FbGood g sp d0 (processed ++ [idx]) (fbStep g sp acc idx) := by
  unfold fbStep
  by_cases hleg : fbLegal g (fbCandidate sp idx)
  · rw [if_pos hleg]
    rcases h with ⟨rfl, hall⟩ | ⟨pre, i, post, rfl, hlegi, rfl, hpre, hpost⟩
    · rw [if_pos (show (fbScore g sp idx : Int) > (fbInit d0).bestScore by
        simp only [fbInit]; omega)]
      right
      refine ⟨processed, idx, [], rfl, hleg, rfl, ?_, by simp⟩
      intro j hj hl
      exact absurd hl (hall j hj)
    · by_cases hgt : ((fbScore g sp idx : Int) > (fbScore g sp i : Int))
      · rw [if_pos hgt]
        right
        refine ⟨pre ++ i :: post, idx, [], by simp, hleg, rfl, ?_, by simp⟩
        intro j hj hl
        have hgt2 : fbScore g sp i < fbScore g sp idx := by exact_mod_cast hgt
        rcases List.mem_append.mp hj with hj2 | hj2
        · exact Nat.lt_trans (hpre j hj2 hl) hgt2
        · rcases List.mem_cons.mp hj2 with rfl | hj3
          · exact hgt2
          · exact Nat.lt_of_le_of_lt (hpost j hj3 hl) hgt2
      · rw [if_neg hgt]
        right
        refine ⟨pre, i, post ++ [idx], by simp, hlegi, rfl, hpre, ?_⟩
        intro j hj hl
        rcases List.mem_append.mp hj with hj2 | hj2
        · exact hpost j hj2 hl
        · rcases List.mem_cons.mp hj2 with rfl | hj3
          · have : ¬fbScore g sp i < fbScore g sp j := fun hlt => hgt (by exact_mod_cast hlt)
            omega
          · exact absurd hj3 (List.not_mem_nil j)
  · rw [if_neg hleg]
    rcases h with ⟨rfl, hall⟩ | ⟨pre, i, post, rfl, hlegi, hacc, hpre, hpost⟩
    · left
      refine ⟨rfl, ?_⟩
      intro j hj
      rcases List.mem_append.mp hj with hj2 | hj2
      · exact hall j hj2
      · rcases List.mem_cons.mp hj2 with rfl | hj3
        · exact hleg
        · exact absurd hj3 (List.not_mem_nil j)
    · right
      refine ⟨pre, i, post ++ [idx], by simp, hlegi, hacc, hpre, ?_⟩
      intro j hj hl
      rcases List.mem_append.mp hj with hj2 | hj2
      · exact hpost j hj2 hl
      · rcases List.mem_cons.mp hj2 with rfl | hj3
        · exact absurd hl hleg
        · exact absurd hj3 (List.not_mem_nil j)

lemma fbFold_good (g : Grid) (sp : Int × Int) (d0 : Direction) (l : List (Fin 4)) :
    ∀ (processed : List (Fin 4)) (acc : FbAcc), FbGood g sp d0 processed acc →
      FbGood g sp d0 (processed ++ l) (l.foldl (fbStep g sp) acc) := by
  induction l with
  | nil => intro processed acc h; simpa using h
  | cons a l ih =>
      intro processed acc h
      simp only [List.foldl_cons]
      have h2 := ih (processed ++ [a]) _ (fbStep_good g sp d0 processed acc a h)
      simpa [List.append_assoc] using h2

lemma mem_rotOrder (s j : Fin 4) : j ∈ rotOrder s := by
  fin_cases s <;> fin_cases j <;> decide

lemma survivalFallback_unfold (g : Grid) (sp : Int × Int) (d0 : Direction) (s : Fin 4) :
    survivalFallback g sp d0 s =
      (if ¬((rotOrder s).foldl (fbStep g sp) (fbInit d0)).bestMove.1 = -1 then
        (((rotOrder s).foldl (fbStep g sp) (fbInit d0)).bestDir,
          [((rotOrder s).foldl (fbStep g sp) (fbInit d0)).bestMove])
      else (Direction.ofIdx (d0.toIdx + 2), [])) := rfl

/-- C9: GetLocalSafetyScore is the minimum Manhattan distance to an
in-bounds mine within the scan box, capped at 999 when none is found;
the fallback skips illegal candidates and proposes the first candidate
(in the rotated order) attaining the strictly greatest safety score,
and when no candidate is legal it reverses the direction and proposes
no move. -/
theorem survival_fallback_spec :
    (∀ (g : Grid) (x y : Int) (r : Nat), getLocalSafetyScore g x y r ≤ 999) ∧
    (∀ (g : Grid) (x y : Int) (r : Nat) (dx dy : Int),
      dx.natAbs ≤ r → dy.natAbs ≤ r → safeMineAt g x y dx dy →
      getLocalSafetyScore g x y r ≤ dx.natAbs + dy.natAbs) ∧
    (∀ (g : Grid) (x y : Int) (r : Nat),
      getLocalSafetyScore g x y r = 999 ∨
      ∃ dx dy : Int, dx.natAbs ≤ r ∧ dy.natAbs ≤ r ∧ safeMineAt g x y dx dy ∧
        getLocalSafetyScore g x y r = dx.natAbs + dy.natAbs) ∧
    (∀ (g : Grid) (sp : Int × Int) (d0 : Direction) (s : Fin 4),
      (∀ idx : Fin 4, ¬fbLegal g (fbCandidate sp idx)) →
      survivalFallback g sp d0 s = (Direction.ofIdx (d0.toIdx + 2), [])) ∧
    (∀ (g : Grid) (sp : Int × Int) (d0 : Direction) (s : Fin 4) (dir : Direction)
        (mv : Int × Int),
      survivalFallback g sp d0 s = (dir, [mv]) →
      ∃ (i : Fin 4) (pre post : List (Fin 4)),
        rotOrder s = pre ++ i :: post ∧
        mv = fbCandidate sp i ∧ dir = fbDir i ∧ fbLegal g (fbCandidate sp i) ∧
        (∀ j ∈ pre, fbLegal g (fbCandidate sp j) → fbScore g sp j < fbScore g sp i) ∧
        (∀ j : Fin 4, fbLegal g (fbCandidate sp j) → fbScore g sp j ≤ fbScore g sp i)) := by
  refine ⟨?_, ?_, ?_, ?_, ?_⟩
  · intro g x y r
    unfold getLocalSafetyScore
    exact safetyFoldOuter_le g x y (radiusOffsets r) (radiusOffsets r) 999
  · intro g x y r dx dy hdx hdy hm
    unfold getLocalSafetyScore
    exact safetyFoldOuter_ub g x y (radiusOffsets r) (radiusOffsets r) 999 dx dy
      ((mem_radiusOffsets r dx).mpr hdx) ((mem_radiusOffsets r dy).mpr hdy) hm
  · intro g x y r
    unfold getLocalSafetyScore
    rcases safetyFoldOuter_mem g x y (radiusOffsets r) (radiusOffsets r) 999 with
      h | ⟨dx, hdx, dy, hdy, hm, he⟩
    · exact Or.inl h
    · exact Or.inr ⟨dx, dy, (mem_radiusOffsets r dx).mp hdx, (mem_radiusOffsets r dy).mp hdy,
        hm, he⟩
  · intro g sp d0 s hno
    have hg := fbFold_good g sp d0 (rotOrder s) [] (fbInit d0)
      (Or.inl ⟨rfl, by intro j hj; exact absurd hj (List.not_mem_nil j)⟩)
    rw [List.nil_append] at hg
    rcases hg with ⟨hacc, _⟩ | ⟨pre, i, post, hsplit, hlegi, _, _, _⟩
    · rw [survivalFallback_unfold, hacc]
      simp [fbInit]
    · exact absurd hlegi (hno i)
  · intro g sp d0 s dir mv heq
    have hg := fbFold_good g sp d0 (rotOrder s) [] (fbInit d0)
      (Or.inl ⟨rfl, by intro j hj; exact absurd hj (List.not_mem_nil j)⟩)
    rw [List.nil_append] at hg
    rw [survivalFallback_unfold] at heq
    rcases hg with ⟨hacc, _⟩ | ⟨pre, i, post, hsplit, hlegi, hacc, hpre, hpost⟩
    · rw [hacc] at heq
      simp [fbInit] at heq
    · rw [hacc] at heq
      have hne : ¬(fbCandidate sp i).1 = -1 := by
        obtain ⟨⟨h0, _⟩, _⟩ := hlegi
        omega
      rw [if_pos (by simpa using hne)] at heq
      rw [Prod.mk.injEq] at heq
      obtain ⟨hdir, hmv⟩ := heq
      simp only [List.cons.injEq, and_true] at hmv
      refine ⟨i, pre, post, hsplit, hmv.symm, hdir.symm, hlegi, hpre, ?_⟩
      intro j hlegj
      have hjmem : j ∈ rotOrder s := mem_rotOrder s j
      rw [hsplit] at hjmem
      rcases List.mem_append.mp hjmem with hj2 | hj2
      · exact Nat.le_of_lt (hpre j hj2 hlegj)
      · rcases List.mem_cons.mp hj2 with rfl | hj3
        · exact Nat.le_refl _
        · exact hpost j hj3 hlegj

/-- Grid whose only non-air cells are walls at (1,0) and (0,1): from
(0,0) no fallback candidate is legal. -/
def exGridC9 : Grid := fun x y =>
  if (x = 1 ∧ y = 0) ∨ (x = 0 ∧ y = 1) then .wall else .air

theorem survival_fallback_spec_witness :
    ((∀ idx : Fin 4, ¬fbLegal exGridC9 (fbCandidate (0, 0) idx)) ∧
      ((-1 : Int).natAbs ≤ 4 ∧ (0 : Int).natAbs ≤ 4 ∧ safeMineAt exGridC2 5 5 (-1) 0) ∧
      survivalFallback (fun _ _ => .air) (5, 5) .north 0 = (.north, [(5, 4)])) ∧
    survivalFallback exGridC9 (0, 0) .north 0 = (Direction.ofIdx (Direction.north.toIdx + 2), []) ∧
    getLocalSafetyScore exGridC2 5 5 4 ≤ 1 ∧
    (∃ (i : Fin 4) (pre post : List (Fin 4)),
      rotOrder 0 = pre ++ i :: post ∧
      ((5, 4) : Int × Int) = fbCandidate (5, 5) i ∧ Direction.north = fbDir i ∧
      fbLegal (fun _ _ => .air) (fbCandidate (5, 5) i) ∧
      (∀ j ∈ pre, fbLegal (fun _ _ => .air) (fbCandidate (5, 5) j) →
        fbScore (fun _ _ => .air) (5, 5) j < fbScore (fun _ _ => .air) (5, 5) i) ∧
      (∀ j : Fin 4, fbLegal (fun _ _ => .air) (fbCandidate (5, 5) j) →
        fbScore (fun _ _ => .air) (5, 5) j ≤ fbScore (fun _ _ => .air) (5, 5) i)) :=
  ⟨⟨by decide, ⟨by decide, by decide, by decide⟩, by decide⟩,
   survival_fallback_spec.2.2.2.1 exGridC9 (0, 0) .north 0 (by decide),
   (by simpa using survival_fallback_spec.2.1 exGridC2 5 5 4 (-1) 0 (by decide) (by decide) (by decide)),
   survival_fallback_spec.2.2.2.2 (fun _ _ => .air) (5, 5) .north 0 .north (5, 4) (by decide)⟩

--------------------------------------------------------------------------------
-- C1: occupancy invariant
--------------------------------------------------------------------------------

/-- Some active person stands at q. -/
def personOccupies (ctx : GameCtx) (q : Int × Int) : Prop :=
  ∃ i : Fin 5, ¬(ctx.people i).position.1 = -1 ∧ (ctx.people i).position = q

/-- Some live mine stands at q. -/
def mineOccupies (ctx : GameCtx) (q : Int × Int) : Prop :=
  ∃ i : Nat, i < ctx.mines.length ∧ ¬(ctx.mines.getD i defaultEntity).position.1 = -1 ∧
    (ctx.mines.getD i defaultEntity).position = q

/-- The per-cell part of the occupancy invariant: a cell is tagged
Robot/Person/Mine exactly when the corresponding live entity stands
there (Air and Wall cells host no entity, by the right-to-left
directions). -/
def cellOcc (ctx : GameCtx) (x y : Int) : Prop :=
  (ctx.grid x y = .robot ↔ ctx.robot.position = (x, y)) ∧
  (ctx.grid x y = .person ↔ personOccupies ctx (x, y)) ∧
  (ctx.grid x y = .mine ↔ mineOccupies ctx (x, y))

/-- The occupancy invariant: live entity positions are on the grid, the
grid tags mirror the entity positions cell by cell, and no two live
entities of the same kind share a cell (across kinds sharing is already
impossible, a cell cannot carry two tags). -/
def Occ (ctx : GameCtx) : Prop :=
  inGridI ctx.robot.position ∧
  (∀ i : Fin 5, ¬(ctx.people i).position.1 = -1 → inGridI (ctx.people i).position) ∧
  (∀ i : Nat, i < ctx.mines.length → ¬(ctx.mines.getD i defaultEntity).position.1 = -1 →
    inGridI (ctx.mines.getD i defaultEntity).position) ∧
  (∀ x : Nat, x < GRID_W → ∀ y : Nat, y < GRID_H → cellOcc ctx x y) ∧
  (∀ i j : Fin 5,
    (¬i = j ∧ ¬(ctx.people i).position.1 = -1 ∧ ¬(ctx.people j).position.1 = -1) →
    ¬(ctx.people i).position = (ctx.people j).position) ∧
  (∀ i : Nat, i < ctx.mines.length → ∀ j : Nat, j < ctx.mines.length →
    (¬i = j ∧ ¬(ctx.mines.getD i defaultEntity).position.1 = -1 ∧
      ¬(ctx.mines.getD j defaultEntity).position.1 = -1) →
    ¬(ctx.mines.getD i defaultEntity).position = (ctx.mines.getD j defaultEntity).position)

instance (ctx : GameCtx) (q : Int × Int) : Decidable (personOccupies ctx q) := by
  unfold personOccupies; exact inferInstance

instance (ctx : GameCtx) (q : Int × Int) : Decidable (mineOccupies ctx q) := by
  unfold mineOccupies; exact inferInstance

instance (ctx : GameCtx) (x y : Int) : Decidable (cellOcc ctx x y) := by
  unfold cellOcc; exact inferInstance

instance (ctx : GameCtx) : Decidable (Occ ctx) := by
  unfold Occ; exact inferInstance

/-- Context satisfying the occupancy invariant: robot at (0,0), one
person at (2,2) facing east, one mine at (3,2). -/
def exCtxC1 : GameCtx :=
  { grid := fun x y =>
      if x = 0 ∧ y = 0 then .robot
      else if x = 2 ∧ y = 2 then .person
      else if x = 3 ∧ y = 2 then .mine
      else .air
  , robot := { position := (0, 0), direction := .north }
  , moveCooldown := 20
  , people := fun j => if j = 0 then { position := (2, 2), direction := .east } else defaultEntity
  , mines := [{ position := (3, 2), direction := .north }]
  , peopleRemaining := 5
  , livesRemaining := 5
  , hwN := 3
  , hwD := 2 }

/-- C1 counterexample: from an invariant-satisfying state, the resolver
lets the person at (2,2) step east onto the mine cell (3,2) (nothing in
MoveEntity blocks a non-robot mover entering a Mine cell): afterwards
the person and the live mine share cell (3,2), whose tag is Person, so
the occupancy correspondence is NOT preserved by every resolver
operation. -/
theorem occupancy_counterexample :
    Occ exCtxC1 ∧
    (moveEntity exCtxC1 (.person 0)).grid 3 2 = .person ∧
    ((moveEntity exCtxC1 (.person 0)).people 0).position = (3, 2) ∧
    ((moveEntity exCtxC1 (.person 0)).mines.getD 0 defaultEntity).position = (3, 2) ∧
    ¬Occ (moveEntity exCtxC1 (.person 0)) := by decide

lemma GRID_WIDTH_eq : GRID_WIDTH = 30 := rfl
lemma GRID_HEIGHT_eq : GRID_HEIGHT = 30 := rfl
lemma GRID_W_eq : GRID_W = 30 := rfl
lemma GRID_H_eq : GRID_H = 30 := rfl

lemma occ_cell {ctx : GameCtx} (h : Occ ctx) (q : Int × Int) (hq : inGridI q) :
    cellOcc ctx q.1 q.2 := by
  obtain ⟨_, _, _, h4, _, _⟩ := h
  obtain ⟨hq1, hq2, hq3, hq4⟩ := hq
  rw [GRID_WIDTH_eq] at hq2
  rw [GRID_HEIGHT_eq] at hq4
  have h5 := h4 q.1.toNat (by rw [GRID_W_eq]; omega) q.2.toNat (by rw [GRID_H_eq]; omega)
  rw [Int.toNat_of_nonneg hq1, Int.toNat_of_nonneg hq3] at h5
  exact h5

lemma occ_robot_tag {ctx : GameCtx} (h : Occ ctx) :
    ctx.grid ctx.robot.position.1 ctx.robot.position.2 = .robot :=
  (occ_cell h ctx.robot.position h.1).1.mpr rfl

lemma occ_person_tag {ctx : GameCtx} (h : Occ ctx) (i : Fin 5)
    (hact : ¬(ctx.people i).position.1 = -1) :
    ctx.grid (ctx.people i).position.1 (ctx.people i).position.2 = .person :=
  (occ_cell h (ctx.people i).position (h.2.1 i hact)).2.1.mpr ⟨i, hact, rfl⟩

lemma occ_mine_tag {ctx : GameCtx} (h : Occ ctx) (i : Nat) (hlen : i < ctx.mines.length)
    (hact : ¬(ctx.mines.getD i defaultEntity).position.1 = -1) :
    ctx.grid (ctx.mines.getD i defaultEntity).position.1
      (ctx.mines.getD i defaultEntity).position.2 = .mine :=
  (occ_cell h (ctx.mines.getD i defaultEntity).position (h.2.2.1 i hlen hact)).2.2.mpr
    ⟨i, hlen, hact, rfl⟩

/-- When the destination cell is in bounds and free (Air), MoveEntity is
the plain move: vacate origin, update the mover's position, tag the
destination. -/
lemma moveEntity_air (ctx : GameCtx) (m : MoverId)
    (hb : ¬(GRID_WIDTH ≤ (moverTarget ctx m).1 ∨ (moverTarget ctx m).1 < 0 ∨
        GRID_HEIGHT ≤ (moverTarget ctx m).2 ∨ (moverTarget ctx m).2 < 0))
    (hair : ctx.grid (moverTarget ctx m).1 (moverTarget ctx m).2 = .air) :
    moveEntity ctx m =
      { setMoverPos ctx m (moverTarget ctx m) with
        grid := gridSet (gridSet ctx.grid (moverEntity ctx m).position .air)
          (moverTarget ctx m) (moverCellType m) } := by
  cases m <;> simp [moveEntity, moverCellType, setMoverPos, hb, hair]

lemma pair_eq_components {a b : Int} {p : Int × Int} (h : p = (a, b)) :
    a = p.1 ∧ b = p.2 := by
  rw [h]
  exact ⟨rfl, rfl⟩

lemma occ_air_robot (ctx : GameCtx) (h : Occ ctx)
    (hb : ¬(GRID_WIDTH ≤ (moverTarget ctx .robot).1 ∨ (moverTarget ctx .robot).1 < 0 ∨
        GRID_HEIGHT ≤ (moverTarget ctx .robot).2 ∨ (moverTarget ctx .robot).2 < 0))
    (hair : ctx.grid (moverTarget ctx .robot).1 (moverTarget ctx .robot).2 = .air) :
    Occ (moveEntity ctx .robot) := by
  rw [moveEntity_air ctx .robot hb hair]
  have hfpin : inGridI (moverTarget ctx .robot) := by
    rw [GRID_WIDTH_eq, GRID_HEIGHT_eq] at hb
    unfold inGridI
    rw [GRID_WIDTH_eq, GRID_HEIGHT_eq]
    omega
  have hrtag := occ_robot_tag h
  have hrne : ¬ctx.robot.position = moverTarget ctx .robot := by
    intro he
    rw [he, hair] at hrtag
    exact absurd hrtag (by decide)
  have hnpfp : ¬personOccupies ctx (moverTarget ctx .robot) := by
    rintro ⟨i, hact, hpos⟩
    have ht := occ_person_tag h i hact
    rw [hpos, hair] at ht
    exact absurd ht (by decide)
  have hnmfp : ¬mineOccupies ctx (moverTarget ctx .robot) := by
    rintro ⟨i, hlen, hact, hpos⟩
    have ht := occ_mine_tag h i hlen hact
    rw [hpos, hair] at ht
    exact absurd ht (by decide)
  have hnprp : ¬personOccupies ctx ctx.robot.position := by
    rintro ⟨i, hact, hpos⟩
    have ht := occ_person_tag h i hact
    rw [hpos, hrtag] at ht
    exact absurd ht (by decide)
  have hnmrp : ¬mineOccupies ctx ctx.robot.position := by
    rintro ⟨i, hlen, hact, hpos⟩
    have ht := occ_mine_tag h i hlen hact
    rw [hpos, hrtag] at ht
    exact absurd ht (by decide)
  obtain ⟨h1, h2, h3, h4, h5, h6⟩ := h
  refine ⟨hfpin, h2, h3, ?_, h5, h6⟩
  intro x hx y hy
  have hold := h4 x hx y hy
  obtain ⟨ho1, ho2, ho3⟩ := hold
  refine ⟨?_, ?_, ?_⟩ <;> simp only [gridSet, moverEntity, setMoverPos, moverCellType]
  · -- robot tag
    by_cases hq1 : (x : Int) = (moverTarget ctx .robot).1 ∧ (y : Int) = (moverTarget ctx .robot).2
    · have hq : ((x : Int), (y : Int)) = moverTarget ctx .robot := by
        obtain ⟨ha, hb2⟩ := hq1; rw [ha, hb2]
      rw [if_pos hq1]
      exact ⟨fun _ => hq.symm, fun _ => rfl⟩
    · rw [if_neg hq1]
      by_cases hq2 : (x : Int) = ctx.robot.position.1 ∧ (y : Int) = ctx.robot.position.2
      · rw [if_pos hq2]
        constructor
        · intro hc; exact absurd hc (by decide)
        · intro hc; exact absurd (pair_eq_components hc) hq1
      · rw [if_neg hq2]
        constructor
        · intro hc; exact absurd (pair_eq_components (ho1.mp hc)) hq2
        · intro hc; exact absurd (pair_eq_components hc) hq1
  · -- person tag
    by_cases hq1 : (x : Int) = (moverTarget ctx .robot).1 ∧ (y : Int) = (moverTarget ctx .robot).2
    · have hq : ((x : Int), (y : Int)) = moverTarget ctx .robot := by
        obtain ⟨ha, hb2⟩ := hq1; rw [ha, hb2]
      rw [if_pos hq1]
      constructor
      · intro hc; exact absurd hc (by decide)
      · intro hc
        rw [hq] at hc
        exact absurd hc hnpfp
    · rw [if_neg hq1]
      by_cases hq2 : (x : Int) = ctx.robot.position.1 ∧ (y : Int) = ctx.robot.position.2
      · have hq : ((x : Int), (y : Int)) = ctx.robot.position := by
          obtain ⟨ha, hb2⟩ := hq2; rw [ha, hb2]
        rw [if_pos hq2]
        constructor
        · intro hc; exact absurd hc (by decide)
        · intro hc
          rw [hq] at hc
          exact absurd hc hnprp
      · rw [if_neg hq2]
        exact ho2
  · -- mine tag
    by_cases hq1 : (x : Int) = (moverTarget ctx .robot).1 ∧ (y : Int) = (moverTarget ctx .robot).2
    · have hq : ((x : Int), (y : Int)) = moverTarget ctx .robot := by
        obtain ⟨ha, hb2⟩ := hq1; rw [ha, hb2]
      rw [if_pos hq1]
      constructor
      · intro hc; exact absurd hc (by decide)
      · intro hc
        rw [hq] at hc
        exact absurd hc hnmfp
    · rw [if_neg hq1]
      by_cases hq2 : (x : Int) = ctx.robot.position.1 ∧ (y : Int) = ctx.robot.position.2
      · have hq : ((x : Int), (y : Int)) = ctx.robot.position := by
          obtain ⟨ha, hb2⟩ := hq2; rw [ha, hb2]
        rw [if_pos hq2]
        constructor
        · intro hc; exact absurd hc (by decide)
        · intro hc
          rw [hq] at hc
          exact absurd hc hnmrp
      · rw [if_neg hq2]
        exact ho3

lemma occ_air_person (ctx : GameCtx) (i : Fin 5) (h : Occ ctx)
    (hact : ¬(ctx.people i).position.1 = -1)
    (hb : ¬(GRID_WIDTH ≤ (moverTarget ctx (.person i)).1 ∨ (moverTarget ctx (.person i)).1 < 0 ∨
        GRID_HEIGHT ≤ (moverTarget ctx (.person i)).2 ∨ (moverTarget ctx (.person i)).2 < 0))
    (hair : ctx.grid (moverTarget ctx (.person i)).1 (moverTarget ctx (.person i)).2 = .air) :
    Occ (moveEntity ctx (.person i)) := by
  rw [moveEntity_air ctx (.person i) hb hair]
  have hfpin : inGridI (moverTarget ctx (.person i)) := by
    rw [GRID_WIDTH_eq, GRID_HEIGHT_eq] at hb
    unfold inGridI
    rw [GRID_WIDTH_eq, GRID_HEIGHT_eq]
    omega
  have hfpact : ¬(moverTarget ctx (.person i)).1 = -1 := by
    obtain ⟨ha, _, _, _⟩ := hfpin
    omega
  have hptag := occ_person_tag h i hact
  have hpne : ¬(ctx.people i).position = moverTarget ctx (.person i) := by
    intro he
    rw [he, hair] at hptag
    exact absurd hptag (by decide)
  have hrtag := occ_robot_tag h
  have hnrfp : ¬ctx.robot.position = moverTarget ctx (.person i) := by
    intro he
    rw [he, hair] at hrtag
    exact absurd hrtag (by decide)
  have hnrpi : ¬ctx.robot.position = (ctx.people i).position := by
    intro he
    rw [he, hptag] at hrtag
    exact absurd hrtag (by decide)
  have hnpfp : ¬personOccupies ctx (moverTarget ctx (.person i)) := by
    rintro ⟨j, hactj, hpos⟩
    have ht := occ_person_tag h j hactj
    rw [hpos, hair] at ht
    exact absurd ht (by decide)
  have hnmfp : ¬mineOccupies ctx (moverTarget ctx (.person i)) := by
    rintro ⟨j, hlen, hactj, hpos⟩
    have ht := occ_mine_tag h j hlen hactj
    rw [hpos, hair] at ht
    exact absurd ht (by decide)
  have hnmpi : ¬mineOccupies ctx (ctx.people i).position := by
    rintro ⟨j, hlen, hactj, hpos⟩
    have ht := occ_mine_tag h j hlen hactj
    rw [hpos, hptag] at ht
    exact absurd ht (by decide)
  obtain ⟨h1, h2, h3, h4, h5, h6⟩ := h
  refine ⟨h1, ?_, h3, ?_, ?_, h6⟩
  · -- people stay on the grid
    intro j
    simp only [setMoverPos]
    by_cases hj : j = i
    · rw [if_pos hj]
      intro _
      exact hfpin
    · rw [if_neg hj]
      exact h2 j
  · -- cell correspondence
    intro x hx y hy
    obtain ⟨ho1, ho2, ho3⟩ := h4 x hx y hy
    refine ⟨?_, ?_, ?_⟩ <;> simp only [gridSet, moverEntity, setMoverPos, moverCellType]
    · -- robot tag
      by_cases hq1 : (x : Int) = (moverTarget ctx (.person i)).1 ∧
          (y : Int) = (moverTarget ctx (.person i)).2
      · have hq : ((x : Int), (y : Int)) = moverTarget ctx (.person i) := by
          obtain ⟨ha, hb2⟩ := hq1; rw [ha, hb2]
        rw [if_pos hq1]
        constructor
        · intro hc; exact absurd hc (by decide)
        · intro hc
          rw [hq] at hc
          exact absurd hc hnrfp
      · rw [if_neg hq1]
        by_cases hq2 : (x : Int) = (ctx.people i).position.1 ∧
            (y : Int) = (ctx.people i).position.2
        · have hq : ((x : Int), (y : Int)) = (ctx.people i).position := by
            obtain ⟨ha, hb2⟩ := hq2; rw [ha, hb2]
          rw [if_pos hq2]
          constructor
          · intro hc; exact absurd hc (by decide)
          · intro hc
            rw [hq] at hc
            exact absurd hc hnrpi
        · rw [if_neg hq2]
          exact ho1
    · -- person tag
      by_cases hq1 : (x : Int) = (moverTarget ctx (.person i)).1 ∧
          (y : Int) = (moverTarget ctx (.person i)).2
      · have hq : ((x : Int), (y : Int)) = moverTarget ctx (.person i) := by
          obtain ⟨ha, hb2⟩ := hq1; rw [ha, hb2]
        rw [if_pos hq1]
        constructor
        · intro _
          refine ⟨i, ?_, ?_⟩ <;> simp only []
          · rw [if_true]
            exact hfpact
          · rw [if_true]
            exact hq.symm
        · intro _; rfl
      · rw [if_neg hq1]
        by_cases hq2 : (x : Int) = (ctx.people i).position.1 ∧
            (y : Int) = (ctx.people i).position.2
        · have hq : ((x : Int), (y : Int)) = (ctx.people i).position := by
            obtain ⟨ha, hb2⟩ := hq2; rw [ha, hb2]
          rw [if_pos hq2]
          constructor
          · intro hc; exact absurd hc (by decide)
          · rintro ⟨j, hactj, hposj⟩
            simp only [] at hactj hposj
            by_cases hj : j = i
            · rw [if_pos hj] at hposj
              rw [hq] at hposj
              exact absurd hposj.symm hpne
            · rw [if_neg hj] at hposj hactj
              rw [hq] at hposj
              exact absurd hposj (h5 j i ⟨hj, hactj, hact⟩)
        · rw [if_neg hq2]
          constructor
          · intro hc
            obtain ⟨j, hactj, hposj⟩ := ho2.mp hc
            by_cases hj : j = i
            · rw [hj] at hposj
              exact absurd (pair_eq_components hposj) hq2
            · refine ⟨j, ?_, ?_⟩ <;> simp only [] <;> rw [if_neg hj]
              · exact hactj
              · exact hposj
          · rintro ⟨j, hactj, hposj⟩
            simp only [] at hactj hposj
            by_cases hj : j = i
            · rw [if_pos hj] at hposj
              exact absurd (pair_eq_components hposj) hq1
            · rw [if_neg hj] at hposj hactj
              exact ho2.mpr ⟨j, hactj, hposj⟩
    · -- mine tag
      by_cases hq1 : (x : Int) = (moverTarget ctx (.person i)).1 ∧
          (y : Int) = (moverTarget ctx (.person i)).2
      · have hq : ((x : Int), (y : Int)) = moverTarget ctx (.person i) := by
          obtain ⟨ha, hb2⟩ := hq1; rw [ha, hb2]
        rw [if_pos hq1]
        constructor
        · intro hc; exact absurd hc (by decide)
        · intro hc
          rw [hq] at hc
          exact absurd hc hnmfp
      · rw [if_neg hq1]
        by_cases hq2 : (x : Int) = (ctx.people i).position.1 ∧
            (y : Int) = (ctx.people i).position.2
        · have hq : ((x : Int), (y : Int)) = (ctx.people i).position := by
            obtain ⟨ha, hb2⟩ := hq2; rw [ha, hb2]
          rw [if_pos hq2]
          constructor
          · intro hc; exact absurd hc (by decide)
          · intro hc
            rw [hq] at hc
            exact absurd hc hnmpi
        · rw [if_neg hq2]
          exact ho3
  · -- people pairwise distinct
    intro j k
    simp only [setMoverPos]
    by_cases hj : j = i <;> by_cases hk : k = i
    · rw [if_pos hj, if_pos hk]
      rintro ⟨hjk, _, _⟩
      exact absurd (hj.trans hk.symm) hjk
    · rw [if_pos hj, if_neg hk]
      rintro ⟨_, _, hactk⟩ he
      exact hnpfp ⟨k, hactk, he.symm⟩
    · rw [if_neg hj, if_pos hk]
      rintro ⟨_, hactj, _⟩ he
      exact hnpfp ⟨j, hactj, he⟩
    · rw [if_neg hj, if_neg hk]
      exact fun hcond => h5 j k hcond

lemma getD_set_self (l : List MovingEntity) (i : Nat) (hi : i < l.length)
    (a d : MovingEntity) : (l.set i a).getD i d = a := by
  simp [List.getD, List.getElem?_set_self', List.getElem?_eq_getElem, hi]

lemma getD_set_other (l : List MovingEntity) (i j : Nat) (h : ¬i = j)
    (a d : MovingEntity) : (l.set i a).getD j d = l.getD j d := by
  simp [List.getD, List.getElem?_set_ne h]

lemma occ_air_mine (ctx : GameCtx) (i : Nat) (h : Occ ctx)
    (hlen : i < ctx.mines.length)
    (hact : ¬(ctx.mines.getD i defaultEntity).position.1 = -1)
    (hb : ¬(GRID_WIDTH ≤ (moverTarget ctx (.mine i)).1 ∨ (moverTarget ctx (.mine i)).1 < 0 ∨
        GRID_HEIGHT ≤ (moverTarget ctx (.mine i)).2 ∨ (moverTarget ctx (.mine i)).2 < 0))
    (hair : ctx.grid (moverTarget ctx (.mine i)).1 (moverTarget ctx (.mine i)).2 = .air) :
    Occ (moveEntity ctx (.mine i)) := by
  rw [moveEntity_air ctx (.mine i) hb hair]
  have hfpin : inGridI (moverTarget ctx (.mine i)) := by
    rw [GRID_WIDTH_eq, GRID_HEIGHT_eq] at hb
    unfold inGridI
    rw [GRID_WIDTH_eq, GRID_HEIGHT_eq]
    omega
  have hfpact : ¬(moverTarget ctx (.mine i)).1 = -1 := by
    obtain ⟨ha, _, _, _⟩ := hfpin
    omega
  have hmtag := occ_mine_tag h i hlen hact
  have hmne : ¬(ctx.mines.getD i defaultEntity).position = moverTarget ctx (.mine i) := by
    intro he
    rw [he, hair] at hmtag
    exact absurd hmtag (by decide)
  have hrtag := occ_robot_tag h
  have hnrfp : ¬ctx.robot.position = moverTarget ctx (.mine i) := by
    intro he
    rw [he, hair] at hrtag
    exact absurd hrtag (by decide)
  have hnrmi : ¬ctx.robot.position = (ctx.mines.getD i defaultEntity).position := by
    intro he
    rw [he, hmtag] at hrtag
    exact absurd hrtag (by decide)
  have hnpfp : ¬personOccupies ctx (moverTarget ctx (.mine i)) := by
    rintro ⟨j, hactj, hpos⟩
    have ht := occ_person_tag h j hactj
    rw [hpos, hair] at ht
    exact absurd ht (by decide)
  have hnpmi : ¬personOccupies ctx (ctx.mines.getD i defaultEntity).position := by
    rintro ⟨j, hactj, hpos⟩
    have ht := occ_person_tag h j hactj
    rw [hpos, hmtag] at ht
    exact absurd ht (by decide)
  have hnmfp : ¬mineOccupies ctx (moverTarget ctx (.mine i)) := by
    rintro ⟨j, hlenj, hactj, hpos⟩
    have ht := occ_mine_tag h j hlenj hactj
    rw [hpos, hair] at ht
    exact absurd ht (by decide)
  obtain ⟨h1, h2, h3, h4, h5, h6⟩ := h
  refine ⟨h1, h2, ?_, ?_, h5, ?_⟩
  · -- mines stay on the grid
    intro j
    simp only [setMoverPos, List.length_set]
    intro hlenj
    by_cases hj : j = i
    · subst hj
      rw [getD_set_self ctx.mines j hlenj]
      intro _
      exact hfpin
    · rw [getD_set_other ctx.mines i j (fun he => hj he.symm)]
      exact h3 j hlenj
  · -- cell correspondence
    intro x hx y hy
    obtain ⟨ho1, ho2, ho3⟩ := h4 x hx y hy
    refine ⟨?_, ?_, ?_⟩ <;> simp only [gridSet, moverEntity, setMoverPos, moverCellType]
    · -- robot tag
      by_cases hq1 : (x : Int) = (moverTarget ctx (.mine i)).1 ∧
          (y : Int) = (moverTarget ctx (.mine i)).2
      · have hq : ((x : Int), (y : Int)) = moverTarget ctx (.mine i) := by
          obtain ⟨ha, hb2⟩ := hq1; rw [ha, hb2]
        rw [if_pos hq1]
        constructor
        · intro hc; exact absurd hc (by decide)
        · intro hc
          rw [hq] at hc
          exact absurd hc hnrfp
      · rw [if_neg hq1]
        by_cases hq2 : (x : Int) = (ctx.mines.getD i defaultEntity).position.1 ∧
            (y : Int) = (ctx.mines.getD i defaultEntity).position.2
        · have hq : ((x : Int), (y : Int)) = (ctx.mines.getD i defaultEntity).position := by
            obtain ⟨ha, hb2⟩ := hq2; rw [ha, hb2]
          rw [if_pos hq2]
          constructor
          · intro hc; exact absurd hc (by decide)
          · intro hc
            rw [hq] at hc
            exact absurd hc hnrmi
        · rw [if_neg hq2]
          exact ho1
    · -- person tag
      by_cases hq1 : (x : Int) = (moverTarget ctx (.mine i)).1 ∧
          (y : Int) = (moverTarget ctx (.mine i)).2
      · have hq : ((x : Int), (y : Int)) = moverTarget ctx (.mine i) := by
          obtain ⟨ha, hb2⟩ := hq1; rw [ha, hb2]
        rw [if_pos hq1]
        constructor
        · intro hc; exact absurd hc (by decide)
        · intro hc
          rw [hq] at hc
          exact absurd hc hnpfp
      · rw [if_neg hq1]
        by_cases hq2 : (x : Int) = (ctx.mines.getD i defaultEntity).position.1 ∧
            (y : Int) = (ctx.mines.getD i defaultEntity).position.2
        · have hq : ((x : Int), (y : Int)) = (ctx.mines.getD i defaultEntity).position := by
            obtain ⟨ha, hb2⟩ := hq2; rw [ha, hb2]
          rw [if_pos hq2]
          constructor
          · intro hc; exact absurd hc (by decide)
          · intro hc
            rw [hq] at hc
            exact absurd hc hnpmi
        · rw [if_neg hq2]
          exact ho2
    · -- mine tag
      by_cases hq1 : (x : Int) = (moverTarget ctx (.mine i)).1 ∧
          (y : Int) = (moverTarget ctx (.mine i)).2
      · have hq : ((x : Int), (y : Int)) = moverTarget ctx (.mine i) := by
          obtain ⟨ha, hb2⟩ := hq1; rw [ha, hb2]
        rw [if_pos hq1]
        constructor
        · intro _
          refine ⟨i, ?_, ?_, ?_⟩
          · simp only [List.length_set]
            exact hlen
          · rw [getD_set_self ctx.mines i hlen]
            exact hfpact
          · rw [getD_set_self ctx.mines i hlen]
            exact hq.symm
        · intro _; rfl
      · rw [if_neg hq1]
        by_cases hq2 : (x : Int) = (ctx.mines.getD i defaultEntity).position.1 ∧
            (y : Int) = (ctx.mines.getD i defaultEntity).position.2
        · have hq : ((x : Int), (y : Int)) = (ctx.mines.getD i defaultEntity).position := by
            obtain ⟨ha, hb2⟩ := hq2; rw [ha, hb2]
          rw [if_pos hq2]
          constructor
          · intro hc; exact absurd hc (by decide)
          · rintro ⟨j, hlenj, hactj, hposj⟩
            simp only [List.length_set] at hlenj
            by_cases hj : j = i
            · subst hj
              rw [getD_set_self ctx.mines j hlenj] at hposj
              rw [hq] at hposj
              exact absurd hposj.symm hmne
            · rw [getD_set_other ctx.mines i j (fun he => hj he.symm)] at hposj hactj
              rw [hq] at hposj
              exact absurd hposj (h6 j hlenj i hlen ⟨hj, hactj, hact⟩)
        · rw [if_neg hq2]
          constructor
          · intro hc
            obtain ⟨j, hlenj, hactj, hposj⟩ := ho3.mp hc
            by_cases hj : j = i
            · rw [hj] at hposj
              exact absurd (pair_eq_components hposj) hq2
            · refine ⟨j, ?_, ?_, ?_⟩
              · simp only [List.length_set]
                exact hlenj
              · rw [getD_set_other ctx.mines i j (fun he => hj he.symm)]
                exact hactj
              · rw [getD_set_other ctx.mines i j (fun he => hj he.symm)]
                exact hposj
          · rintro ⟨j, hlenj, hactj, hposj⟩
            simp only [List.length_set] at hlenj
            by_cases hj : j = i
            · subst hj
              rw [getD_set_self ctx.mines j hlenj] at hposj
              exact absurd (pair_eq_components hposj) hq1
            · rw [getD_set_other ctx.mines i j (fun he => hj he.symm)] at hposj hactj
              exact ho3.mpr ⟨j, hlenj, hactj, hposj⟩
  · -- mines pairwise distinct
    intro j
    simp only [setMoverPos, List.length_set]
    intro hlenj k hlenk
    by_cases hj : j = i <;> by_cases hk : k = i
    · subst hj; subst hk
      rintro ⟨hjk, _, _⟩
      exact absurd rfl hjk
    · subst hj
      rw [getD_set_self ctx.mines j hlenj, getD_set_other ctx.mines j k (fun he => hk he.symm)]
      rintro ⟨_, _, hactk⟩ he
      exact hnmfp ⟨k, hlenk, hactk, he.symm⟩
    · subst hk
      rw [getD_set_self ctx.mines k hlenk, getD_set_other ctx.mines k j (fun he => hj he.symm)]
      rintro ⟨_, hactj, _⟩ he
      exact hnmfp ⟨j, hlenj, hactj, he⟩
    · rw [getD_set_other ctx.mines i j (fun he => hj he.symm),
        getD_set_other ctx.mines i k (fun he => hk he.symm)]
      exact fun hcond => h6 j hlenj k hlenk hcond

/-- A mover MoveEntity is actually called on: the robot, or an active
person/mine with a valid index (MoveMovingEntity skips inactive
entities). -/
def moverValid (ctx : GameCtx) : MoverId → Prop
  | .robot => True
  | .person i => ¬(ctx.people i).position.1 = -1
  | .mine i => i < ctx.mines.length ∧ ¬(ctx.mines.getD i defaultEntity).position.1 = -1

lemma moveEntity_oob (ctx : GameCtx) (m : MoverId)
    (hb : GRID_WIDTH ≤ (moverTarget ctx m).1 ∨ (moverTarget ctx m).1 < 0 ∨
      GRID_HEIGHT ≤ (moverTarget ctx m).2 ∨ (moverTarget ctx m).2 < 0) :
    moveEntity ctx m = ctx := by
  simp [moveEntity, hb]

/-- C1 (amended): the occupancy invariant is preserved by a resolver
call whenever the candidate cell is off-grid (move rejected) or Air (a
plain move); it is NOT preserved by arbitrary resolver calls (see the
counterexample: a person or mine may step onto a Mine or Robot cell). -/
theorem occupancy_preserved (ctx : GameCtx) (m : MoverId)
    (hocc : Occ ctx) (hval : moverValid ctx m)
    (hdest : (GRID_WIDTH ≤ (moverTarget ctx m).1 ∨ (moverTarget ctx m).1 < 0 ∨
        GRID_HEIGHT ≤ (moverTarget ctx m).2 ∨ (moverTarget ctx m).2 < 0) ∨
      ctx.grid (moverTarget ctx m).1 (moverTarget ctx m).2 = .air) :
    Occ (moveEntity ctx m) := by
  by_cases hb : (GRID_WIDTH ≤ (moverTarget ctx m).1 ∨ (moverTarget ctx m).1 < 0 ∨
      GRID_HEIGHT ≤ (moverTarget ctx m).2 ∨ (moverTarget ctx m).2 < 0)
  · rw [moveEntity_oob ctx m hb]
    exact hocc
  · have hair : ctx.grid (moverTarget ctx m).1 (moverTarget ctx m).2 = .air :=
      hdest.resolve_left hb
    cases m with
    | robot => exact occ_air_robot ctx hocc hb hair
    | person i => exact occ_air_person ctx i hocc hval hb hair
    | mine i => exact occ_air_mine ctx i hocc hval.1 hval.2 hb hair

/-- Same state as exCtxC1 but with the robot facing east, towards the
free cell (1,0). -/
def exCtxC1b : GameCtx :=
  { exCtxC1 with robot := { position := (0, 0), direction := .east } }

theorem occupancy_preserved_witness :
    (Occ exCtxC1b ∧ exCtxC1b.grid (moverTarget exCtxC1b .robot).1
      (moverTarget exCtxC1b .robot).2 = .air) ∧
    Occ (moveEntity exCtxC1b .robot) :=
  ⟨⟨by decide, by decide⟩,
   occupancy_preserved exCtxC1b .robot (by decide) trivial (Or.inr (by decide))⟩

--------------------------------------------------------------------------------
-- C3 / C10: A* loop invariants
--------------------------------------------------------------------------------

/-- One orthogonal unit step between two cells. -/
def adjStep (a b : Int × Int) : Prop :=
  (a.1 - b.1).natAbs + (a.2 - b.2).natAbs = 1

lemma adjStep_symm {a b : Int × Int} (h : adjStep a b) : adjStep b a := by
  unfold adjStep at h ⊢
  omega

/-- Parent invariant of the A* node array: every touched (open or
closed) node other than the start has an in-bounds, closed parent of
strictly smaller gCost one orthogonal step away, and sits itself on a
non-Wall, non-Mine cell. -/
def AInv1 (g : Grid) (start : Int × Int) (ns : ANodes) : Prop :=
  ∀ p : Int × Int, inGridI p → ((ns p).isOpen = true ∨ (ns p).closed = true) →
    p = start ∨
    (inGridI ((ns p).parentX, (ns p).parentY) ∧
     (ns ((ns p).parentX, (ns p).parentY)).closed = true ∧
     (ns ((ns p).parentX, (ns p).parentY)).gCost < (ns p).gCost ∧
     adjStep ((ns p).parentX, (ns p).parentY) p ∧
     ¬g p.1 p.2 = .wall ∧ ¬g p.1 p.2 = .mine)

/-- Closed nodes are not open. -/
def AInv2 (ns : ANodes) : Prop :=
  ∀ p : Int × Int, (ns p).closed = true → (ns p).isOpen = false

lemma AInv1_init (g : Grid) (start goal : Int × Int) :
    AInv1 g start (astarInitNodes start goal) := by
  intro p hp hopen
  unfold astarInitNodes nodesSet at hopen
  by_cases hps : p = start
  · exact Or.inl hps
  · rw [if_neg hps] at hopen
    rcases hopen with h | h <;> simp [initialANode] at h

lemma AInv2_init (start goal : Int × Int) : AInv2 (astarInitNodes start goal) := by
  intro p hp
  unfold astarInitNodes nodesSet at hp ⊢
  by_cases hps : p = start
  · rw [if_pos hps] at hp
    simp at hp
  · rw [if_neg hps] at hp
    simp [initialANode] at hp

/-- Case analysis for one relaxation: either nothing changes, or the
neighbour cell is written with the relaxed node. -/
lemma relaxNbr_spec (g : Grid) (goal : Int × Int) (wN wD : Nat) (cur : Int × Int)
    (ns : ANodes) (d : Int × Int) :
    relaxNbr g goal wN wD cur ns d = ns ∨
    (¬(cur.1 + d.1 < 0 ∨ GRID_WIDTH ≤ cur.1 + d.1 ∨ cur.2 + d.2 < 0 ∨
        GRID_HEIGHT ≤ cur.2 + d.2) ∧
     ¬g (cur.1 + d.1) (cur.2 + d.2) = .wall ∧
     ¬g (cur.1 + d.1) (cur.2 + d.2) = .mine ∧
     (ns (cur.1 + d.1, cur.2 + d.2)).closed = false ∧
     relaxNbr g goal wN wD cur ns d =
       nodesSet ns (cur.1 + d.1, cur.2 + d.2)
         { gCost := (ns cur).gCost + 1 +
             (if isNearMine g (cur.1 + d.1) (cur.2 + d.2) then 20 else 0),
           hCost := weightedH wN wD (cur.1 + d.1) (cur.2 + d.2) goal.1 goal.2,
           fCost := (ns cur).gCost + 1 +
               (if isNearMine g (cur.1 + d.1) (cur.2 + d.2) then 20 else 0) +
             weightedH wN wD (cur.1 + d.1) (cur.2 + d.2) goal.1 goal.2,
           parentX := cur.1, parentY := cur.2,
           closed := false, isOpen := true }) := by
  unfold relaxNbr
  by_cases h1 : (cur.1 + d.1 < 0 ∨ GRID_WIDTH ≤ cur.1 + d.1 ∨ cur.2 + d.2 < 0 ∨
      GRID_HEIGHT ≤ cur.2 + d.2)
  · rw [if_pos h1]; exact Or.inl rfl
  · rw [if_neg h1]
    by_cases h2 : (g (cur.1 + d.1) (cur.2 + d.2) = .wall ∨ g (cur.1 + d.1) (cur.2 + d.2) = .mine)
    · rw [if_pos h2]; exact Or.inl rfl
    · rw [if_neg h2]
      push_neg at h2
      by_cases h3 : (ns (cur.1 + d.1, cur.2 + d.2)).closed = true
      · rw [if_pos h3]; exact Or.inl rfl
      · rw [if_neg h3]
        have h3f : (ns (cur.1 + d.1, cur.2 + d.2)).closed = false :=
          Bool.eq_false_iff.mpr h3
        by_cases h4 : ((ns cur).gCost + 1 +
              (if isNearMine g (cur.1 + d.1) (cur.2 + d.2) then 20 else 0) <
            (ns (cur.1 + d.1, cur.2 + d.2)).gCost ∨
          ¬(ns (cur.1 + d.1, cur.2 + d.2)).isOpen = true)
        · rw [if_pos h4]
          refine Or.inr ⟨h1, h2.1, h2.2, h3f, ?_⟩
          rw [h3f]
        · rw [if_neg h4]; exact Or.inl rfl

lemma relaxNbr_closed_cell (g : Grid) (goal : Int × Int) (wN wD : Nat) (cur : Int × Int)
    (ns : ANodes) (d : Int × Int) (p : Int × Int) (hp : (ns p).closed = true) :
    relaxNbr g goal wN wD cur ns d p = ns p := by
  rcases relaxNbr_spec g goal wN wD cur ns d with h | ⟨_, _, _, hcl, he⟩
  · rw [h]
  · rw [he]
    unfold nodesSet
    by_cases hpc : p = (cur.1 + d.1, cur.2 + d.2)
    · rw [hpc] at hp
      rw [hp] at hcl
      exact absurd hcl (by decide)
    · rw [if_neg hpc]

lemma relaxNbr_closed_flag (g : Grid) (goal : Int × Int) (wN wD : Nat) (cur : Int × Int)
    (ns : ANodes) (d : Int × Int) (p : Int × Int) :
    ((relaxNbr g goal wN wD cur ns d) p).closed = (ns p).closed := by
  rcases relaxNbr_spec g goal wN wD cur ns d with h | ⟨_, _, _, hcl, he⟩
  · rw [h]
  · rw [he]
    unfold nodesSet
    by_cases hpc : p = (cur.1 + d.1, cur.2 + d.2)
    · rw [if_pos hpc, hpc, hcl]
    · rw [if_neg hpc]

lemma relaxNbr_inv (g : Grid) (goal : Int × Int) (wN wD : Nat) (start cur : Int × Int)
    (ns : ANodes) (d : Int × Int)
    (hd : d.1.natAbs + d.2.natAbs = 1)
    (hcur : inGridI cur) (hcurcl : (ns cur).closed = true)
    (h1 : AInv1 g start ns) (h2 : AInv2 ns) :
    AInv1 g start (relaxNbr g goal wN wD cur ns d) ∧
    AInv2 (relaxNbr g goal wN wD cur ns d) := by
  rcases relaxNbr_spec g goal wN wD cur ns d with h | ⟨hb, hw, hm, hcl, he⟩
  · rw [h]; exact ⟨h1, h2⟩
  · have hat : relaxNbr g goal wN wD cur ns d (cur.1 + d.1, cur.2 + d.2) =
        { gCost := (ns cur).gCost + 1 +
            (if isNearMine g (cur.1 + d.1) (cur.2 + d.2) then 20 else 0),
          hCost := weightedH wN wD (cur.1 + d.1) (cur.2 + d.2) goal.1 goal.2,
          fCost := (ns cur).gCost + 1 +
              (if isNearMine g (cur.1 + d.1) (cur.2 + d.2) then 20 else 0) +
            weightedH wN wD (cur.1 + d.1) (cur.2 + d.2) goal.1 goal.2,
          parentX := cur.1, parentY := cur.2,
          closed := false, isOpen := true } := by
      rw [he]; unfold nodesSet; rw [if_pos rfl]
    have hother : ∀ q, ¬q = (cur.1 + d.1, cur.2 + d.2) →
        relaxNbr g goal wN wD cur ns d q = ns q := by
      intro q hq
      rw [he]; unfold nodesSet; rw [if_neg hq]
    have hne : ¬cur = (cur.1 + d.1, cur.2 + d.2) := by
      intro hcc
      have hc1 := congrArg Prod.fst hcc
      have hc2 := congrArg Prod.snd hcc
      simp only [] at hc1 hc2
      omega
    constructor
    · intro p hpin hpopen
      by_cases hpc : p = (cur.1 + d.1, cur.2 + d.2)
      · subst hpc
        right
        rw [hat]
        simp only []
        have hoc : relaxNbr g goal wN wD cur ns d (cur.1, cur.2) = ns cur := hother cur hne
        rw [hoc]
        refine ⟨hcur, hcurcl, ?_, ?_, hw, hm⟩
        · split <;> omega
        · unfold adjStep
          simp only []
          omega
      · rw [hother p hpc] at hpopen ⊢
        rcases h1 p hpin hpopen with hstart | ⟨hqin, hqcl, hqg, hqadj, hw2, hm2⟩
        · exact Or.inl hstart
        · right
          have hqne : ¬((ns p).parentX, (ns p).parentY) = (cur.1 + d.1, cur.2 + d.2) := by
            intro hq
            rw [hq] at hqcl
            rw [hcl] at hqcl
            exact absurd hqcl (by decide)
          rw [hother _ hqne]
          exact ⟨hqin, hqcl, hqg, hqadj, hw2, hm2⟩
    · intro p hp
      by_cases hpc : p = (cur.1 + d.1, cur.2 + d.2)
      · subst hpc
        rw [hat] at hp
        simp at hp
      · rw [hother p hpc] at hp ⊢
        exact h2 p hp

lemma relaxFold_closed_flag (g : Grid) (goal : Int × Int) (wN wD : Nat) (cur : Int × Int) :
    ∀ (l : List (Int × Int)) (ns : ANodes) (p : Int × Int),
      ((l.foldl (relaxNbr g goal wN wD cur) ns) p).closed = (ns p).closed := by
  intro l
  induction l with
  | nil => intro ns p; rfl
  | cons a l ih =>
      intro ns p
      simp only [List.foldl_cons]
      rw [ih, relaxNbr_closed_flag]

lemma relaxFold_closed_cell (g : Grid) (goal : Int × Int) (wN wD : Nat) (cur : Int × Int) :
    ∀ (l : List (Int × Int)) (ns : ANodes) (p : Int × Int), (ns p).closed = true →
      (l.foldl (relaxNbr g goal wN wD cur) ns) p = ns p := by
  intro l
  induction l with
  | nil => intro ns p _; rfl
  | cons a l ih =>
      intro ns p hp
      simp only [List.foldl_cons]
      have h1 := relaxNbr_closed_cell g goal wN wD cur ns a p hp
      rw [ih _ p (by rw [h1]; exact hp), h1]

lemma relaxFold_inv (g : Grid) (goal : Int × Int) (wN wD : Nat) (start cur : Int × Int)
    (hcur : inGridI cur) :
    ∀ (l : List (Int × Int)) (ns : ANodes),
      (∀ d ∈ l, d.1.natAbs + d.2.natAbs = 1) →
      (ns cur).closed = true → AInv1 g start ns → AInv2 ns →
      AInv1 g start (l.foldl (relaxNbr g goal wN wD cur) ns) ∧
      AInv2 (l.foldl (relaxNbr g goal wN wD cur) ns) := by
  intro l
  induction l with
  | nil => intro ns _ _ h1 h2; exact ⟨h1, h2⟩
  | cons a l ih =>
      intro ns hdl hcl h1 h2
      simp only [List.foldl_cons]
      have ha := hdl a (List.mem_cons_self a l)
      have step := relaxNbr_inv g goal wN wD start cur ns a ha hcur hcl h1 h2
      refine ih _ (fun d hd => hdl d (List.mem_cons_of_mem a hd)) ?_ step.1 step.2
      rw [relaxNbr_closed_cell g goal wN wD cur ns a cur hcl]
      exact hcl

lemma expandNode_inv (g : Grid) (goal : Int × Int) (wN wD : Nat) (start cur : Int × Int)
    (ns : ANodes) (hcur : inGridI cur) (hcl : (ns cur).closed = true)
    (h1 : AInv1 g start ns) (h2 : AInv2 ns) :
    AInv1 g start (expandNode g goal wN wD ns cur) ∧
    AInv2 (expandNode g goal wN wD ns cur) := by
  unfold expandNode
  exact relaxFold_inv g goal wN wD start cur hcur astarDirs ns (by decide) hcl h1 h2

lemma closeANode_inv (g : Grid) (start cur : Int × Int) (ns : ANodes)
    (hcurin : inGridI cur) (hcuro : (ns cur).isOpen = true)
    (h1 : AInv1 g start ns) (h2 : AInv2 ns) :
    AInv1 g start (closeANode ns cur) ∧ AInv2 (closeANode ns cur) := by
  have hcurncl : ¬(ns cur).closed = true := by
    intro hc
    rw [h2 cur hc] at hcuro
    exact absurd hcuro (by decide)
  constructor
  · intro p hpin hpopen
    unfold closeANode nodesSet at hpopen ⊢
    by_cases hpc : p = cur
    · subst hpc
      rcases h1 p hpin (Or.inl hcuro) with hstart | ⟨hqin, hqcl, hqg, hqadj, hw2, hm2⟩
      · exact Or.inl hstart
      · right
        rw [if_pos rfl]
        have hqne : ¬((ns p).parentX, (ns p).parentY) = p := by
          intro hq
          rw [hq] at hqcl
          exact absurd hqcl hcurncl
        rw [if_neg hqne]
        exact ⟨hqin, hqcl, hqg, hqadj, hw2, hm2⟩
    · rw [if_neg hpc] at hpopen ⊢
      rcases h1 p hpin hpopen with hstart | ⟨hqin, hqcl, hqg, hqadj, hw2, hm2⟩
      · exact Or.inl hstart
      · right
        by_cases hqc : ((ns p).parentX, (ns p).parentY) = cur
        · rw [if_pos hqc]
          refine ⟨hqin, rfl, ?_, hqadj, hw2, hm2⟩
          rw [hqc] at hqg
          exact hqg
        · rw [if_neg hqc]
          exact ⟨hqin, hqcl, hqg, hqadj, hw2, hm2⟩
  · intro p hp
    unfold closeANode nodesSet at hp ⊢
    by_cases hpc : p = cur
    · rw [if_pos hpc]
    · rw [if_neg hpc] at hp ⊢
      exact h2 p hp

lemma mem_gridCells {c : Int × Int} (h : c ∈ gridCells) : inGridI c := by
  unfold gridCells at h
  obtain ⟨x, hx, hmem⟩ := List.mem_flatMap.mp h
  obtain ⟨y, hy, he⟩ := List.mem_map.mp hmem
  have hx2 := List.mem_range.mp hx
  have hy2 := List.mem_range.mp hy
  rw [← he]
  unfold inGridI
  rw [GRID_WIDTH_eq, GRID_HEIGHT_eq]
  rw [GRID_W_eq] at hx2
  rw [GRID_H_eq] at hy2
  simp only []
  omega

lemma findLowestOpen_some (ns : ANodes) :
    ∀ c, findLowestOpen ns = some c → c ∈ gridCells ∧ (ns c).isOpen = true := by
  have haux : ∀ (l : List (Int × Int)) (acc : Option (Int × Int) × Nat),
      (∀ c, acc.1 = some c → c ∈ gridCells ∧ (ns c).isOpen = true) →
      (∀ a ∈ l, a ∈ gridCells) →
      ∀ c, (l.foldl (fun acc c =>
          if (ns c).isOpen = true ∧ (ns c).fCost < acc.2 then (some c, (ns c).fCost)
          else acc) acc).1 = some c →
        c ∈ gridCells ∧ (ns c).isOpen = true := by
    intro l
    induction l with
    | nil => intro acc hacc _ c hc; exact hacc c hc
    | cons a l ih =>
        intro acc hacc hsub c hc
        simp only [List.foldl_cons] at hc
        refine ih _ ?_ (fun b hb => hsub b (List.mem_cons_of_mem a hb)) c hc
        intro c2 hc2
        by_cases hcond : ((ns a).isOpen = true ∧ (ns a).fCost < acc.2)
        · rw [if_pos hcond] at hc2
          simp only [] at hc2
          rcases hc2 with hc2
          injection hc2 with hc3
          rw [← hc3]
          exact ⟨hsub a (List.mem_cons_self a l), hcond.1⟩
        · rw [if_neg hcond] at hc2
          exact hacc c2 hc2
  intro c hc
  exact haux gridCells ((none : Option (Int × Int)), 999999)
    (fun c2 hc2 => by simp at hc2) (fun a ha => ha) c hc

lemma astarLoop_inv (g : Grid) (start goal : Int × Int) (wN wD : Nat) :
    ∀ (fuel : Nat) (ns : ANodes) (o : AStarOutcome) (ns2 : ANodes),
      astarLoop g goal wN wD fuel ns = some (o, ns2) →
      AInv1 g start ns → AInv2 ns → AInv1 g start ns2 ∧ AInv2 ns2 := by
  intro fuel
  induction fuel with
  | zero => intro ns o ns2 h; exact absurd h (by simp [astarLoop])
  | succ fuel ih =>
      intro ns o ns2 h h1 h2
      rw [astarLoop] at h
      cases hf : findLowestOpen ns with
      | none =>
          rw [hf] at h
          injection h with h3
          injection h3 with _ h4
          rw [← h4]
          exact ⟨h1, h2⟩
      | some cur =>
          rw [hf] at h
          simp only [] at h
          by_cases hg : cur = goal
          · rw [if_pos hg] at h
            injection h with h3
            injection h3 with _ h4
            rw [← h4]
            exact ⟨h1, h2⟩
          · rw [if_neg hg] at h
            obtain ⟨hmem, hopen⟩ := findLowestOpen_some ns cur hf
            have hin := mem_gridCells hmem
            have hclose := closeANode_inv g start cur ns hin hopen h1 h2
            have hclosed : ((closeANode ns cur) cur).closed = true := by
              unfold closeANode nodesSet
              rw [if_pos rfl]
            have hexp := expandNode_inv g goal wN wD start cur (closeANode ns cur)
              hin hclosed hclose.1 hclose.2
            exact ih _ o ns2 h hexp.1 hexp.2

lemma astarLoop_found (g : Grid) (goal : Int × Int) (wN wD : Nat) :
    ∀ (fuel : Nat) (ns ns2 : ANodes),
      astarLoop g goal wN wD fuel ns = some (.found, ns2) →
      findLowestOpen ns2 = some goal := by
  intro fuel
  induction fuel with
  | zero => intro ns ns2 h; exact absurd h (by simp [astarLoop])
  | succ fuel ih =>
      intro ns ns2 h
      rw [astarLoop] at h
      cases hf : findLowestOpen ns with
      | none =>
          rw [hf] at h
          injection h with h3
          injection h3 with h4 _
          exact absurd h4 (by decide)
      | some cur =>
          rw [hf] at h
          simp only [] at h
          by_cases hg : cur = goal
          · rw [if_pos hg] at h
            injection h with h3
            injection h3 with _ h4
            rw [← h4, ← hg]
            exact hf
          · rw [if_neg hg] at h
            exact ih _ ns2 h

def closedCount (ns : ANodes) : Nat :=
  (gridCells.filter (fun c => (ns c).closed)).length

lemma gridCells_length : gridCells.length = 900 := by decide

lemma gridCells_nodup : gridCells.Nodup := by
  unfold gridCells
  rw [List.nodup_flatMap]
  constructor
  · intro x _
    refine List.Nodup.map ?_ (List.nodup_range _)
    intro y1 y2 he
    have h2 := congrArg Prod.snd he
    simp only [] at h2
    exact_mod_cast h2
  · refine (List.pairwise_lt_range _).imp ?_
    intro a b hab c hca hcb
    obtain ⟨y1, _, he1⟩ := List.mem_map.mp hca
    obtain ⟨y2, _, he2⟩ := List.mem_map.mp hcb
    have h1 := congrArg Prod.fst he1
    have h2 := congrArg Prod.fst he2
    simp only [] at h1 h2
    omega

lemma closeANode_cell_self (ns : ANodes) (cur : Int × Int) :
    (closeANode ns cur) cur = { ns cur with isOpen := false, closed := true } := by
  unfold closeANode nodesSet
  rw [if_pos rfl]

lemma closeANode_cell_other (ns : ANodes) (cur p : Int × Int) (hp : ¬p = cur) :
    (closeANode ns cur) p = ns p := by
  unfold closeANode nodesSet
  rw [if_neg hp]

lemma filter_close_length (ns : ANodes) (cur : Int × Int)
    (hncl : (ns cur).closed = false) :
    ∀ l : List (Int × Int), l.Nodup → cur ∈ l →
      (l.filter (fun c => ((closeANode ns cur) c).closed)).length =
        (l.filter (fun c => (ns c).closed)).length + 1 := by
  intro l
  induction l with
  | nil => intro _ hmem; exact absurd hmem (List.not_mem_nil cur)
  | cons a l ih =>
      intro hnd hmem
      obtain ⟨hna, hl⟩ := List.nodup_cons.mp hnd
      rcases List.mem_cons.mp hmem with rfl | hmem2
      · have hrest : l.filter (fun c => ((closeANode ns cur) c).closed) =
            l.filter (fun c => (ns c).closed) := by
          apply List.filter_congr
          intro b hb
          have hbne : ¬b = cur := fun he => hna (he ▸ hb)
          rw [closeANode_cell_other ns cur b hbne]
        rw [List.filter_cons, List.filter_cons, closeANode_cell_self, hncl]
        simp only [Bool.false_eq_true, if_false, if_true, List.length_cons]
        rw [hrest]
      · have hane : ¬a = cur := fun he => hna (he ▸ hmem2)
        rw [List.filter_cons, List.filter_cons, closeANode_cell_other ns cur a hane]
        by_cases hc : (ns a).closed = true
        · rw [hc]
          simp only [if_true, List.length_cons]
          rw [ih hl hmem2]
        · have hcf : (ns a).closed = false := Bool.eq_false_iff.mpr hc
          rw [hcf]
          simp only [Bool.false_eq_true, if_false]
          exact ih hl hmem2

lemma closedCount_close (ns : ANodes) (cur : Int × Int) (hmem : cur ∈ gridCells)
    (hncl : (ns cur).closed = false) :
    closedCount (closeANode ns cur) = closedCount ns + 1 :=
  filter_close_length ns cur hncl gridCells gridCells_nodup hmem

lemma closedCount_expand (g : Grid) (goal : Int × Int) (wN wD : Nat)
    (ns : ANodes) (cur : Int × Int) :
    closedCount (expandNode g goal wN wD ns cur) = closedCount ns := by
  unfold closedCount
  congr 1
  apply List.filter_congr
  intro b _
  unfold expandNode
  rw [relaxFold_closed_flag]

lemma astarLoop_terminates (g : Grid) (start goal : Int × Int) (wN wD : Nat) :
    ∀ (fuel : Nat) (ns : ANodes), AInv1 g start ns → AInv2 ns →
      gridCells.length < closedCount ns + fuel →
      (astarLoop g goal wN wD fuel ns).isSome = true := by
  intro fuel
  induction fuel with
  | zero =>
      intro ns _ _ hlt
      have hle : closedCount ns ≤ gridCells.length :=
        List.length_filter_le (fun c => (ns c).closed) gridCells
      omega
  | succ fuel ih =>
      intro ns h1 h2 hlt
      rw [astarLoop]
      cases hf : findLowestOpen ns with
      | none => rfl
      | some cur =>
          simp only []
          by_cases hg : cur = goal
          · rw [if_pos hg]; rfl
          · rw [if_neg hg]
            obtain ⟨hmem, hopen⟩ := findLowestOpen_some ns cur hf
            have hin := mem_gridCells hmem
            have hncl : (ns cur).closed = false := by
              cases hc : (ns cur).closed
              · rfl
              · rw [h2 cur hc] at hopen
                exact absurd hopen (by decide)
            have hclosedcur : ((closeANode ns cur) cur).closed = true := by
              rw [closeANode_cell_self]
            have hclose := closeANode_inv g start cur ns hin hopen h1 h2
            have hexp := expandNode_inv g goal wN wD start cur (closeANode ns cur)
              hin hclosedcur hclose.1 hclose.2
            apply ih _ hexp.1 hexp.2
            rw [closedCount_expand, closedCount_close ns cur hmem hncl]
            omega

/-- C10: the A* main loop closes a fresh node every iteration and a
closed node is never touched again by relaxation, so with fuel
GRID_W*GRID_H+1 the loop always reaches one of its two exits (goal
popped, or open set exhausted): at most width x height expansions. -/
theorem astar_loop_terminates :
    (∀ (g : Grid) (start goal : Int × Int) (wN wD : Nat),
      (astarLoop g goal wN wD (GRID_W * GRID_H + 1) (astarInitNodes start goal)).isSome = true) ∧
    (∀ (g : Grid) (goal : Int × Int) (wN wD : Nat) (ns : ANodes) (cur p : Int × Int),
      (ns p).closed = true → (expandNode g goal wN wD ns cur) p = ns p) := by
  constructor
  · intro g start goal wN wD
    apply astarLoop_terminates g start goal wN wD (GRID_W * GRID_H + 1)
      (astarInitNodes start goal) (AInv1_init g start goal) (AInv2_init start goal)
    have h900 := gridCells_length
    have h901 : GRID_W * GRID_H = 900 := rfl
    omega
  · intro g goal wN wD ns cur p hp
    unfold expandNode
    exact relaxFold_closed_cell g goal wN wD cur astarDirs ns p hp

theorem astar_loop_terminates_witness :
    ((closeANode (astarInitNodes (1, 1) (3, 1)) (1, 1)) (1, 1)).closed = true ∧
    (expandNode (fun _ _ => CellType.air) (3, 1) 3 2
        (closeANode (astarInitNodes (1, 1) (3, 1)) (1, 1)) (1, 1)) (1, 1) =
      (closeANode (astarInitNodes (1, 1) (3, 1)) (1, 1)) (1, 1) :=
  ⟨by decide,
   astar_loop_terminates.2 (fun _ _ => .air) (3, 1) 3 2
     (closeANode (astarInitNodes (1, 1) (3, 1)) (1, 1)) (1, 1) (1, 1) (by decide)⟩

lemma retrace_spec (g : Grid) (start : Int × Int) (ns : ANodes)
    (hinv : AInv1 g start ns) :
    ∀ (fuel : Nat) (c : Int × Int) (acc : List (Int × Int)),
      inGridI c → ((ns c).isOpen = true ∨ (ns c).closed = true) → (ns c).gCost < fuel →
      ∃ l, retraceAux ns start fuel c acc = some (acc ++ l) ∧
        (c = start → l = []) ∧
        (¬c = start → l.head? = some c) ∧
        (∀ q ∈ l, inGridI q ∧ ¬g q.1 q.2 = .wall ∧ ¬g q.1 q.2 = .mine ∧ ¬q = start) ∧
        List.Chain' adjStep l ∧
        (¬c = start → ∃ z, l.getLast? = some z ∧ adjStep start z) := by
  intro fuel
  induction fuel with
  | zero => intro c acc _ _ hg; omega
  | succ fuel ih =>
      intro c acc hcin hcopen hgc
      have hcm : ¬(c.1 = -1 ∨ c.2 = -1) := by
        obtain ⟨ha, hb, hc2, hd⟩ := hcin
        omega
      rw [retraceAux, if_neg hcm]
      by_cases hcs : c = start
      · rw [if_pos hcs]
        refine ⟨[], by rw [List.append_nil], fun _ => rfl, fun hns => absurd hcs hns, ?_, ?_, ?_⟩
        · intro q hq
          exact absurd hq (List.not_mem_nil q)
        · exact List.chain'_nil
        · intro hns
          exact absurd hcs hns
      · rw [if_neg hcs]
        rcases hinv c hcin hcopen with hstart | ⟨hqin, hqcl, hqg, hqadj, hwall, hmine⟩
        · exact absurd hstart hcs
        · obtain ⟨l2, heq, hstartl, hheadl, hmem, hchain, hlast⟩ :=
            ih ((ns c).parentX, (ns c).parentY) (acc ++ [c]) hqin (Or.inr hqcl) (by omega)
          refine ⟨c :: l2, ?_, fun hc => absurd hc hcs, fun _ => rfl, ?_, ?_, ?_⟩
          · rw [heq]
            simp
          · intro q hq
            rcases List.mem_cons.mp hq with rfl | hq2
            · exact ⟨hcin, hwall, hmine, hcs⟩
            · exact hmem q hq2
          · rcases hl2 : l2 with _ | ⟨q2, rest⟩
            · exact List.chain'_singleton c
            · have hqne : ¬((ns c).parentX, (ns c).parentY) = start := by
                intro hqs
                have h0 := hstartl hqs
                rw [hl2] at h0
                exact absurd h0 (by simp)
              have hheadq := hheadl hqne
              rw [hl2] at hheadq
              injection hheadq with hq2eq
              rw [List.chain'_cons]
              constructor
              · rw [hq2eq]
                exact adjStep_symm hqadj
              · rw [← hl2]
                exact hchain
          · intro _
            rcases hl2 : l2 with _ | ⟨q2, rest⟩
            · have hps : ((ns c).parentX, (ns c).parentY) = start := by
                by_contra hqne
                have h0 := hheadl hqne
                rw [hl2] at h0
                exact absurd h0 (by simp)
              refine ⟨c, ?_, ?_⟩
              · simp
              · rw [hps] at hqadj
                exact hqadj
            · have hqne : ¬((ns c).parentX, (ns c).parentY) = start := by
                intro hqs
                have h0 := hstartl hqs
                rw [hl2] at h0
                exact absurd h0 (by simp)
              obtain ⟨z, hz1, hz2⟩ := hlast hqne
              refine ⟨z, ?_, hz2⟩
              rw [hl2] at hz1
              rw [List.getLast?_cons_cons]
              exact hz1

/-- C3: validity of every non-empty A* path (amended).  Consecutive
coordinates differ by exactly one orthogonal unit step, no coordinate is
a Wall or Mine cell of the grid snapshot, every coordinate is in bounds
and distinct from the start, the sequence is ordered goal-to-start: its
FIRST coordinate equals the goal (the target person's position) and its
LAST coordinate is one orthogonal step from the start.  The original
claim's "the last coordinate equals the target's position" is refuted by
astar_path_counterexample. -/
theorem astar_path_valid (g : Grid) (start goal : Int × Int) (wN wD : Nat)
    (hne : ¬astarPath g start goal wN wD = []) :
    (astarPath g start goal wN wD).head? = some goal ∧
    List.Chain' adjStep (astarPath g start goal wN wD) ∧
    (∀ q ∈ astarPath g start goal wN wD,
        inGridI q ∧ ¬g q.1 q.2 = CellType.wall ∧ ¬g q.1 q.2 = CellType.mine ∧
        ¬q = start) ∧
    (∃ z, (astarPath g start goal wN wD).getLast? = some z ∧ adjStep start z) := by
  rcases hres : astarLoop g goal wN wD (GRID_W * GRID_H + 1) (astarInitNodes start goal)
    with _ | ⟨o, ns2⟩
  · have hp : astarPath g start goal wN wD = [] := by
      unfold astarPath
      rw [hres]
    exact absurd hp hne
  · cases o with
    | exhausted =>
        have hp : astarPath g start goal wN wD = [] := by
          unfold astarPath
          rw [hres]
        exact absurd hp hne
    | found =>
        have hp : astarPath g start goal wN wD =
            (retraceAux ns2 start ((ns2 goal).gCost + 1) goal []).getD [] := by
          unfold astarPath
          rw [hres]
        have hfind := astarLoop_found g goal wN wD _ _ _ hres
        obtain ⟨hmem, hopen⟩ := findLowestOpen_some ns2 goal hfind
        have hgin := mem_gridCells hmem
        obtain ⟨hinv1, _⟩ := astarLoop_inv g start goal wN wD _ _ _ _ hres
          (AInv1_init g start goal) (AInv2_init start goal)
        obtain ⟨l, heq, hstartl, hheadl, hmem2, hchain, hlast⟩ :=
          retrace_spec g start ns2 hinv1 ((ns2 goal).gCost + 1) goal [] hgin
            (Or.inl hopen) (by omega)
        by_cases hgs : goal = start
        · exact absurd (by rw [hp, heq, hstartl hgs]; rfl) hne
        · rw [hp, heq]
          simp only [Option.getD_some, List.nil_append]
          exact ⟨hheadl hgs, hchain, hmem2, hlast hgs⟩

/-- C3 counterexample: on an all-Air grid from start (1,1) to goal
(3,1) with weight 1.5 (= 3/2), the computed path is [(3,1),(2,1)]: its
LAST coordinate is (2,1), which is not the target's position (3,1) -- the
FIRST coordinate is the target.  This refutes "the last coordinate of the
sequence equals the target person's position". -/
theorem astar_path_counterexample :
    astarPath (fun _ _ => CellType.air) (1, 1) (3, 1) 3 2 = [(3, 1), (2, 1)] ∧
    (astarPath (fun _ _ => CellType.air) (1, 1) (3, 1) 3 2).getLast? = some (2, 1) ∧
    ¬((2, 1) : Int × Int) = (3, 1) := by
  decide

theorem astar_path_valid_witness :
    ¬astarPath (fun _ _ => CellType.air) (1, 1) (3, 1) 3 2 = [] ∧
    ((astarPath (fun _ _ => CellType.air) (1, 1) (3, 1) 3 2).head? = some (3, 1) ∧
     List.Chain' adjStep (astarPath (fun _ _ => CellType.air) (1, 1) (3, 1) 3 2) ∧
     (∀ q ∈ astarPath (fun _ _ => CellType.air) (1, 1) (3, 1) 3 2,
         inGridI q ∧ ¬(fun _ _ => CellType.air) q.1 q.2 = CellType.wall ∧
         ¬(fun _ _ => CellType.air) q.1 q.2 = CellType.mine ∧ ¬q = ((1, 1) : Int × Int)) ∧
     (∃ z, (astarPath (fun _ _ => CellType.air) (1, 1) (3, 1) 3 2).getLast? = some z ∧
         adjStep (1, 1) z)) :=
  ⟨by decide, astar_path_valid (fun _ _ => CellType.air) (1, 1) (3, 1) 3 2 (by decide)⟩
